import Mathlib

set_option maxHeartbeats 1000000

/-!
Shallow embedding of the `kontrol-af-joblog` robot (src/main.py and
src/process/momentum_service.py).

External collaborators (the Momentum API, the reporting sink and the
completion tracker) are modelled as explicit inputs and an effect log:
each service method takes the value the collaborator would return and
produces the list of observable side effects (task creation, report
emission, tracking calls) together with its result or the raised
exception.  Python `datetime` values are modelled as a record of calendar
fields plus an optional UTC offset (none = timezone-naive); `datetime`
comparison raises `TypeError` on naive/aware mixes, exactly as in Python.
-/

/-- Exceptions that the modelled code can raise: `WorkItemError` is the
distinguished soft error of the repository, `TypeError`/`ValueError` are
the Python built-ins reachable through datetime handling. -/
inductive PyErr where
  | workItemError (msg : String)
  | typeError
  | valueError
  deriving DecidableEq, Repr

/-- Observable side effects on the external collaborators: caseworker task
creation (`opret_opgave`), report emission, and the two completion-tracker
calls. -/
inductive Effect where
  | opretOpgave (beskrivelse : String)
  | report (group : String) (beskrivelse : String)
  | trackTask
  | trackPartialTask
  deriving DecidableEq, Repr

/-- Model of a Python `datetime`: calendar fields plus the timezone offset
in minutes (`none` = naive value, `some 0` = UTC). -/
structure PyDateTime where
  year : Nat
  month : Nat
  day : Nat
  hour : Nat
  minute : Nat
  second : Nat
  microsecond : Nat
  tzOffsetMinutes : Option Int
  deriving DecidableEq, Repr

def isLeapYear (y : Nat) : Bool :=
  (y % 4 == 0 && y % 100 != 0) || y % 400 == 0

def daysInMonth (y m : Nat) : Nat :=
  if m = 2 then (if isLeapYear y then 29 else 28)
  else if m = 4 ∨ m = 6 ∨ m = 9 ∨ m = 11 then 30 else 31

/-- Day number of a proleptic-Gregorian date, counted from 0000-03-01
(the standard days-from-civil computation used to give `datetime`
values a total order). -/
def daysFromCivil (y m d : Nat) : Nat :=
  let yAdj := if m ≤ 2 then y - 1 else y
  let era := yAdj / 400
  let yoe := yAdj % 400
  let mp := (m + 9) % 12
  let doy := (153 * mp + 2) / 5 + d - 1
  era * 146097 + yoe * 365 + yoe / 4 - yoe / 100 + doy

/-- Microseconds of the naive (wall-clock) fields of a datetime, counted
from 0000-03-01T00:00:00. -/
def naiveMicros (t : PyDateTime) : Nat :=
  ((daysFromCivil t.year t.month t.day) * 86400
      + t.hour * 3600 + t.minute * 60 + t.second) * 1000000
    + t.microsecond

/-- The instant denoted by a datetime, in microseconds: naive fields minus
the UTC offset (naive values are read with offset 0; they are only ever
compared to other naive values). -/
def specInstant (t : PyDateTime) : Int :=
  (naiveMicros t : Int) - (t.tzOffsetMinutes.getD 0) * 60000000

/-- Python `<=` on datetimes: aware values compare by instant, naive
values by wall-clock fields, and a naive/aware mix raises `TypeError`. -/
def pyLE (a b : PyDateTime) : Except PyErr Bool :=
  match a.tzOffsetMinutes, b.tzOffsetMinutes with
  | some _, some _ => .ok (decide (specInstant a ≤ specInstant b))
  | none, none => .ok (decide (naiveMicros a ≤ naiveMicros b))
  | _, _ => .error .typeError

/-- `datetime.min.replace(tzinfo=timezone.utc)`: 0001-01-01T00:00:00+00:00. -/
def datetimeMinUtc : PyDateTime := ⟨1, 1, 1, 0, 0, 0, 0, some 0⟩

/-- The calendar month preceding month `m` of year `y`. -/
def prevMonth (y m : Nat) : Nat × Nat :=
  if m = 1 then (y - 1, 12) else (y, m - 1)

/-- `dt - timedelta(days=1)` on a valid datetime (Python timedelta
arithmetic acts on the wall-clock fields; the offset is unchanged). -/
def subOneDay (t : PyDateTime) : PyDateTime :=
  if 1 < t.day then { t with day := t.day - 1 }
  else
    let p := prevMonth t.year t.month
    { t with year := p.1, month := p.2, day := daysInMonth p.1 p.2 }

/-- `dt - timedelta(microseconds=1)` on a valid datetime. -/
def subOneMicro (t : PyDateTime) : PyDateTime :=
  if 0 < t.microsecond then { t with microsecond := t.microsecond - 1 }
  else if 0 < t.second then { t with second := t.second - 1, microsecond := 999999 }
  else if 0 < t.minute then { t with minute := t.minute - 1, second := 59, microsecond := 999999 }
  else if 0 < t.hour then { t with hour := t.hour - 1, minute := 59, second := 59, microsecond := 999999 }
  else subOneDay { t with hour := 23, minute := 59, second := 59, microsecond := 999999 }

def isDigitChar (c : Char) : Bool := '0' ≤ c && c ≤ '9'

def digitVal (c : Char) : Nat := c.toNat - 48

/-- Integer value of a digit run (`int` applied to the matched digits). -/
def digitsVal (ds : List Char) : Nat :=
  ds.foldl (fun a c => a * 10 + digitVal c) 0

/-- The whitespace characters matched by the regex class backslash-s
(ASCII subset). -/
def isSpaceChar (c : Char) : Bool :=
  c = ' ' || c = '\t' || c = '\n' || c = '\r' || c = '\x0b' || c = '\x0c'

/-- Read exactly `n` decimal digits, accumulating their value. -/
def readDigits : Nat → List Char → Nat → Option (Nat × List Char)
  | 0, cs, acc => some (acc, cs)
  | _ + 1, [], _ => none
  | n + 1, c :: cs, acc =>
      if isDigitChar c then readDigits n cs (acc * 10 + digitVal c) else none

def expectChar (c : Char) : List Char → Option (List Char)
  | [] => none
  | x :: xs => if x = c then some xs else none

/-- Microseconds denoted by a fractional-seconds digit run (digits beyond
the sixth are truncated, shorter runs are scaled up). -/
def fracMicros (ds : List Char) : Nat :=
  let d6 := ds.take 6
  digitsVal d6 * 10 ^ (6 - d6.length)

/-- Parse `HH[:MM[:SS[.ffffff]]]`, returning hour, minute, second,
microsecond and the remaining characters. -/
def parseHMS (cs : List Char) : Option (Nat × Nat × Nat × Nat × List Char) := do
  let (h, cs) ← readDigits 2 cs 0
  match cs with
  | ':' :: cs1 => do
    let (mi, cs1) ← readDigits 2 cs1 0
    match cs1 with
    | ':' :: cs2 => do
      let (s, cs2) ← readDigits 2 cs2 0
      match cs2 with
      | '.' :: cs3 =>
        let ds := cs3.takeWhile isDigitChar
        if ds.isEmpty then none
        else some (h, mi, s, fracMicros ds, cs3.dropWhile isDigitChar)
      | ',' :: cs3 =>
        let ds := cs3.takeWhile isDigitChar
        if ds.isEmpty then none
        else some (h, mi, s, fracMicros ds, cs3.dropWhile isDigitChar)
      | _ => some (h, mi, s, 0, cs2)
    | _ => some (h, mi, 0, 0, cs1)
  | _ => some (h, 0, 0, 0, cs)

/-- Parse the magnitude of a `+HH:MM` / `-HH:MM` UTC offset (the sign has
already been consumed); must consume the rest of the string. -/
def parseOffMag (pos : Bool) (cs : List Char) : Option (Option Int) := do
  let (oh, cs) ← readDigits 2 cs 0
  let cs ← expectChar ':' cs
  let (om, cs) ← readDigits 2 cs 0
  if cs = [] ∧ oh ≤ 23 ∧ om ≤ 59 then
    some (some (if pos then ((oh * 60 + om : Nat) : Int) else -((oh * 60 + om : Nat) : Int)))
  else none

/-- Parse the optional trailing UTC offset: end of string means a naive
result, otherwise a signed `HH:MM` offset. -/
def parseOffsetPart : List Char → Option (Option Int)
  | [] => some none
  | '+' :: cs => parseOffMag true cs
  | '-' :: cs => parseOffMag false cs
  | _ => none

/-- Model of `datetime.fromisoformat` on the ISO-8601 subset the repository
can receive: `YYYY-MM-DD`, optionally a one-character separator and
`HH[:MM[:SS[.ffffff]]]`, optionally a signed `HH:MM` UTC offset.  Field
ranges are validated as the `datetime` constructor does; failure models
the `ValueError` raised by CPython. -/
def parseIso (cs : List Char) : Option PyDateTime := do
  let (y, cs) ← readDigits 4 cs 0
  let cs ← expectChar '-' cs
  let (mo, cs) ← readDigits 2 cs 0
  let cs ← expectChar '-' cs
  let (d, cs) ← readDigits 2 cs 0
  if 1 ≤ y ∧ 1 ≤ mo ∧ mo ≤ 12 ∧ 1 ≤ d ∧ d ≤ daysInMonth y mo then
    match cs with
    | [] => some (PyDateTime.mk y mo d 0 0 0 0 none)
    | _sep :: cs1 => do
      let (h, mi, s, us, cs2) ← parseHMS cs1
      if h ≤ 23 ∧ mi ≤ 59 ∧ s ≤ 59 then do
        let off ← parseOffsetPart cs2
        some (PyDateTime.mk y mo d h mi s us off)
      else none
  else none

def fromisoformat (s : String) : Option PyDateTime := parseIso s.data

/-- `date_str.replace('Z', '+00:00')` (every capital Z is replaced). -/
def replaceZ (s : String) : String :=
  String.mk (s.data.foldr
    (fun c acc => if c = 'Z' then '+' :: '0' :: '0' :: ':' :: '0' :: '0' :: acc else c :: acc) [])

/-- A Python value sitting in a timestamp field of a job log entry:
a `datetime`, a string, or `None` (also used for an absent key, since
`entry.get` returns `None` for those). -/
inductive PyTime where
  | dt (d : PyDateTime)
  | str (s : String)
  | noneVal
  deriving DecidableEq, Repr

/-- `MomentumService.__parse_date`: pass datetimes through, parse strings
after replacing `Z` by `+00:00`, and normalize anything else to
`datetime.min` tagged UTC. -/
def parse_date : PyTime → Except PyErr PyDateTime
  | .dt d => .ok d
  | .str s =>
    match fromisoformat (replaceZ s) with
    | some d => .ok d
    | none => .error .valueError
  | .noneVal => .ok datetimeMinUtc

/-- A Python scalar in one of the five composite-key fields of a job log
entry (the external API sends strings or numbers). -/
inductive PyScalar where
  | s (v : String)
  | i (v : Int)
  deriving DecidableEq, Repr

/-- `str(..)` / f-string rendering of a scalar. -/
def PyScalar.toStr : PyScalar → String
  | .s v => v
  | .i v => toString v

/-- Rendering of `entry.get(key, '')`: an absent key becomes the empty
string, a present value is rendered by `str`. -/
def fieldStr : Option PyScalar → String
  | some v => v.toStr
  | none => ""

/-- A job log entry: the five composite-key fields (absent = `none`) and
the two timestamps. -/
structure JobLogEntry where
  title : Option PyScalar
  companyName : Option PyScalar
  companyPostCode : Option PyScalar
  companyTown : Option PyScalar
  distanceToCompanyInMeters : Option PyScalar
  submissionDate : PyTime
  updatedAt : PyTime
  deriving DecidableEq, Repr

/-- The composite key built for deduplication: the space-joined string
forms of the five descriptive fields. -/
def jobHash (e : JobLogEntry) : String :=
  fieldStr e.title ++ " " ++ fieldStr e.companyName ++ " " ++ fieldStr e.companyPostCode
    ++ " " ++ fieldStr e.companyTown ++ " " ++ fieldStr e.distanceToCompanyInMeters

/-- Result of `hent_personvisitationstatus`: the exemption-status record,
with the optional `personExemptNames` list (a falsy record is modelled as
the surrounding `Option` being `none`). -/
structure PVStatus where
  personExemptNames : Option (List String)
  deriving DecidableEq, Repr

/-- Result of `hent_jobsøgningsdefinition`: the requirement record with
its free-text `otherExpectations` field. -/
structure JobDef where
  otherExpectations : Option String
  deriving DecidableEq, Repr

/-- Process name constant `proces_navn`. -/
def proces_navn : String := "Kontrol af joblog"

/-- `MomentumService.opret_opgave_til_sagsbehandler`: looks up the fixed
caseworker "dorf" (given here as the lookup's result) and creates the
task; raises `WorkItemError` when the caseworker is not found. -/
def opret_opgave_til_sagsbehandler (medarbejder : Option Unit) (beskrivelse : String) :
    List Effect × Except PyErr Unit :=
  match medarbejder with
  | none => ([], .error (.workItemError "Sagsbehandler \x27dorf\x27 ikke fundet i Momentum."))
  | some _ => ([.opretOpgave beskrivelse], .ok ())

/-- `MomentumService.fritaget_for_joblog`, as a function of the
(retry-resolved) `personvisitationstatus` response. -/
def fritaget_for_joblog (personvisitationstatus : Option PVStatus) :
    List Effect × Except PyErr Bool :=
  match personvisitationstatus with
  | none => ([], .error (.workItemError "Personvisitationstatus ikke fundet i Momentum."))
  | some st =>
    match st.personExemptNames with
    | some names =>
      if names ≠ [] ∧ "Brug af Joblog" ∈ names then
        ([.report "Manuel behandling"
            "Der skal ikke tjekkes mere, da borger er fritaget for brug af joblog.",
          .trackPartialTask], .ok true)
      else ([], .ok false)
    | none => ([], .ok false)

/-- Leftmost-anchored attempt of the regex `(\d+)\s+job` (IGNORECASE) at
the head of `cs`: a greedy digit run, at least one whitespace character,
then the letters j, o, b in any case; returns the integer value of the
digit run. -/
def matchAt (cs : List Char) : Option Nat :=
  if (cs.takeWhile isDigitChar).isEmpty then none
  else if ((cs.dropWhile isDigitChar).takeWhile isSpaceChar).isEmpty then none
  else
    match (cs.dropWhile isDigitChar).dropWhile isSpaceChar with
    | c1 :: c2 :: c3 :: _ =>
      if c1.toLower = 'j' ∧ c2.toLower = 'o' ∧ c3.toLower = 'b'
      then some (digitsVal (cs.takeWhile isDigitChar)) else none
    | _ => none

/-- `re.search(r'(\d+)\s+job', text, re.IGNORECASE)`: try `matchAt` at
every position from left to right and return the first success. -/
def reSearchDigitsJob : List Char → Option Nat
  | [] => none
  | c :: cs =>
    match matchAt (c :: cs) with
    | some k => some k
    | none => reSearchDigitsJob cs

/-- `MomentumService.hent_krav_til_jobsøgning`, as a function of the
caseworker-lookup result (used by the remediation-task helper) and the
`jobsøgningsdefinition` response. -/
def hent_krav_til_jobsoegning (medarbejder : Option Unit) (jobDefinition : Option JobDef) :
    List Effect × Except PyErr (Option Nat) :=
  match jobDefinition with
  | none => ([], .error (.workItemError "Jobsøgningsdefinition ikke fundet i Momentum."))
  | some jd =>
    let notFoundPath : List Effect × Except PyErr (Option Nat) :=
      let r := opret_opgave_til_sagsbehandler medarbejder "\x27Krav til jobsøgning\x27 blev ikke fundet."
      match r.2 with
      | .error e => (r.1, .error e)
      | .ok _ =>
        (r.1 ++ [.report "Behandlet" "\x27Krav til jobsøgning\x27 blev ikke fundet.", .trackTask],
         .ok none)
    match jd.otherExpectations with
    | none => notFoundPath
    | some krav_tekst =>
      if krav_tekst.length = 0 then notFoundPath
      else
        match reSearchDigitsJob krav_tekst.data with
        | none =>
          let r := opret_opgave_til_sagsbehandler medarbejder
            "Der mangler oplysninger om antallet af jobs i \x27Krav til jobsøgning\x27."
          match r.2 with
          | .error e => (r.1, .error e)
          | .ok _ =>
            (r.1 ++ [.report "Behandlet"
                "Der mangler oplysninger om antallet af jobs i \x27Krav til jobsøgning\x27.",
              .trackTask],
             .ok none)
        | some krav_antal =>
          if krav_antal = 0 then ([.trackPartialTask], .ok none)
          else ([], .ok (some krav_antal))

/-- `start_dato`: `(now.replace(day=1) - timedelta(days=1)).replace(day=1,
hour=0, minute=0, second=0, microsecond=0)` — first instant of the prior
calendar month. -/
def startDato (now : PyDateTime) : PyDateTime :=
  let m1 := { now with day := 1 }
  let prev := subOneDay m1
  { prev with day := 1, hour := 0, minute := 0, second := 0, microsecond := 0 }

/-- `slut_dato`: `now.replace(day=1, hour=0, minute=0, second=0,
microsecond=0) - timedelta(microseconds=1)` — last microsecond of the
prior calendar month. -/
def slutDato (now : PyDateTime) : PyDateTime :=
  subOneMicro { now with day := 1, hour := 0, minute := 0, second := 0, microsecond := 0 }

/-- One chained comparison `start_dato <= __parse_date(t) <= slut_dato`,
with Python's left-to-right short-circuit evaluation. -/
def inWindow (lo hi : PyDateTime) (t : PyTime) : Except PyErr Bool :=
  match parse_date t with
  | .error e => .error e
  | .ok d =>
    match pyLE lo d with
    | .error e => .error e
    | .ok false => .ok false
    | .ok true => pyLE d hi

/-- The full filter condition of the list comprehension: both the
submission timestamp and the update timestamp chained-compare into the
window, with `and` short-circuiting. -/
def entryInWindow (lo hi : PyDateTime) (e : JobLogEntry) : Except PyErr Bool :=
  match inWindow lo hi e.submissionDate with
  | .error err => .error err
  | .ok false => .ok false
  | .ok true => inWindow lo hi e.updatedAt

/-- A Python list comprehension with a fallible condition: the first
raised exception aborts the whole comprehension. -/
def filterExc (p : α → Except PyErr Bool) : List α → Except PyErr (List α)
  | [] => .ok []
  | x :: xs =>
    match p x with
    | .error e => .error e
    | .ok b =>
      match filterExc p xs with
      | .error e => .error e
      | .ok rest => .ok (if b then x :: rest else rest)

/-- The `unikke_jobs` dict build: walk the filtered entries in order and
record each previously unseen composite key (insertion-ordered key list
of the Python dict). -/
def collectKeys (acc : List String) : List JobLogEntry → List String
  | [] => acc
  | e :: es =>
    if jobHash e ∈ acc then collectKeys acc es
    else collectKeys (acc ++ [jobHash e]) es

/-- `MomentumService.hent_joblog_aktiviteter`, as a function of the
`hent_joblog` response and the sampled wall clock `now`
(`datetime.now(timezone.utc)`).  Note the source guard `if not joblog`,
which treats an empty list like an absent log. -/
def hent_joblog_aktiviteter (joblog : Option (List JobLogEntry)) (now : PyDateTime) :
    Except PyErr Nat :=
  match joblog with
  | none => .error (.workItemError "Joblog ikke fundet i Momentum.")
  | some entries =>
    if entries.isEmpty then .error (.workItemError "Joblog ikke fundet i Momentum.")
    else
      match filterExc (entryInWindow (startDato now) (slutDato now)) entries with
      | .error e => .error e
      | .ok tidligere => .ok (collectKeys [] tidligere).length

/-- The branch taken by `kontroller_jobsøgning`, in the vocabulary of the
specification's `ComplianceOutcome`. -/
inductive ComplianceOutcome where
  | NoActivityRegistered
  | InsufficientActivity
  | Compliant
  deriving DecidableEq, Repr

/-- `MomentumService.kontroller_jobsøgning`: the compliance decision.  The
source returns nothing; the returned `ComplianceOutcome` names the branch
taken and adds no observable behaviour. -/
def kontroller_jobsoegning (medarbejder : Option Unit) (krav_til_jobsoegning antal_soegte_jobs : Int) :
    List Effect × Except PyErr ComplianceOutcome :=
  if krav_til_jobsoegning > 0 ∧ antal_soegte_jobs = 0 then
    let r := opret_opgave_til_sagsbehandler medarbejder
      "Der var ikke registreret nogen jobs i joblog."
    match r.2 with
    | .error e => (r.1, .error e)
    | .ok _ =>
      (r.1 ++ [.report "Behandlet" "Der var ikke registreret nogen jobs i joblog.", .trackTask],
       .ok .NoActivityRegistered)
  else if antal_soegte_jobs < krav_til_jobsoegning then
    let r := opret_opgave_til_sagsbehandler medarbejder
      "Der er registreret for få job i joblog."
    match r.2 with
    | .error e => (r.1, .error e)
    | .ok _ =>
      (r.1 ++ [.report "Behandlet" "Der er registreret for få job i joblog.", .trackTask],
       .ok .InsufficientActivity)
  else ([], .ok .Compliant)

/-- Errors a Momentum fetch can raise at the transport layer:
`requests.exceptions.HTTPError` (retried by the decorator) or anything
else. -/
inductive MomErr where
  | httpError (code : Nat)
  | other (msg : String)
  deriving DecidableEq, Repr

def isHttpError : MomErr → Bool
  | .httpError _ => true
  | .other _ => false

/-- Modelled from the spec: the wait of the tenacity decorator
`wait_exponential(multiplier=1, min=1, max=10)` after failed attempt `n`
— base 1 unit, doubling, capped at 10 units (the tenacity internals are
not part of this repository; only the decorator's configuration is). -/
def waitAfter (n : Nat) : Nat := min (max (2 ^ (n - 1)) 1) 10

/-- Modelled from the spec: the retry loop of the tenacity decorator
`retry(retry=retry_if_exception_type(HTTPError), stop=stop_after_attempt(10),
reraise=True)` — attempt `k` with `remaining` further attempts allowed;
an `HTTPError` outcome is retried after `waitAfter k` units until the
attempts are exhausted, any other outcome (success or a different
exception) is returned at once, and the last allowed attempt's outcome is
returned unchanged.  Returns (final outcome, number of the last attempt
made, list of waits performed). -/
def retryFrom (attempts : Nat → Except MomErr α) : Nat → Nat → Except MomErr α × Nat × List Nat
  | k, 0 => (attempts k, k, [])
  | k, r + 1 =>
    match attempts k with
    | .ok v => (.ok v, k, [])
    | .error e =>
      if isHttpError e then
        let r2 := retryFrom attempts (k + 1) r
        (r2.1, r2.2.1, waitAfter k :: r2.2.2)
      else (.error e, k, [])

/-- `MomentumService._hent_personvisitationstatus_med_retry`: the
decorated fetch, as a function of the outcome stream of the underlying
call (attempt numbers start at 1; at most 10 attempts). -/
def hent_personvisitationstatus_med_retry (attempts : Nat → Except MomErr (Option PVStatus)) :
    Except MomErr (Option PVStatus) × Nat × List Nat :=
  retryFrom attempts 1 9

/-- The per-citizen external state consumed by one iteration of
`process_workqueue`: each field is what the corresponding collaborator
call returns for this citizen. -/
structure World where
  borger : Option Unit
  personvisitationstatus : Option PVStatus
  jobDefinition : Option JobDef
  joblog : Option (List JobLogEntry)
  medarbejder : Option Unit
  now : PyDateTime
  deriving Repr

/-- One iteration of the `process_workqueue` loop in src/main.py: fetch
the citizen, run the exemption check, the requirement resolution, the
activity count and the compliance check in order, short-circuiting as the
source does; a raised `WorkItemError` is caught by the loop and fails the
item (the effect log up to that point stands). -/
def process_workqueue_item (w : World) : List Effect × Except PyErr Unit :=
  match w.borger with
  | none => ([], .error (.workItemError "Borger ikke fundet i Momentum."))
  | some _ =>
    let f := fritaget_for_joblog w.personvisitationstatus
    match f.2 with
    | .error e => (f.1, .error e)
    | .ok true => (f.1, .ok ())
    | .ok false =>
      let k := hent_krav_til_jobsoegning w.medarbejder w.jobDefinition
      match k.2 with
      | .error e => (f.1 ++ k.1, .error e)
      | .ok none => (f.1 ++ k.1, .ok ())
      | .ok (some krav) =>
        match hent_joblog_aktiviteter w.joblog w.now with
        | .error e => (f.1 ++ k.1, .error e)
        | .ok antal =>
          let c := kontroller_jobsoegning w.medarbejder (krav : Int) (antal : Int)
          match c.2 with
          | .error e => (f.1 ++ k.1 ++ c.1, .error e)
          | .ok _ => (f.1 ++ k.1 ++ c.1, .ok ())

/-- Number of completion-tracker calls (full or partial) in an effect
log. -/
def trackCount (l : List Effect) : Nat :=
  l.countP (fun e => match e with
    | .trackTask => true
    | .trackPartialTask => true
    | _ => false)

/-- A timestamp field that parses without error to a timezone-aware
datetime (note `None` parses to the aware `datetime.min`). -/
def parsesAware (t : PyTime) : Bool :=
  match parse_date t with
  | .ok d => d.tzOffsetMinutes.isSome
  | .error _ => false

/-- Specification-side window membership of one timestamp: its parsed
instant lies in the closed interval `[lo, hi]`. -/
def inWinB (lo hi : PyDateTime) (t : PyTime) : Bool :=
  match parse_date t with
  | .error _ => false
  | .ok d => decide (specInstant lo ≤ specInstant d) && decide (specInstant d ≤ specInstant hi)

/-- Specification-side filter condition: both timestamps of the entry lie
in the audit window. -/
def keptEntry (lo hi : PyDateTime) (e : JobLogEntry) : Bool :=
  inWinB lo hi e.submissionDate && inWinB lo hi e.updatedAt

/-- A match of the pattern `(\d+)\s+job` (IGNORECASE) anchored at the head
of `cs`: a nonempty digit run, nonempty whitespace, then j o b in any
case. -/
def specPatternAt (cs : List Char) : Prop :=
  ∃ ds ws c1 c2 c3 rest,
    cs = ds ++ ws ++ c1 :: c2 :: c3 :: rest ∧
    ds ≠ [] ∧ (∀ c ∈ ds, isDigitChar c = true) ∧
    ws ≠ [] ∧ (∀ c ∈ ws, isSpaceChar c = true) ∧
    c1.toLower = 'j' ∧ c2.toLower = 'o' ∧ c3.toLower = 'b'

/-- The backoff waits performed by the retry loop when it starts at
attempt `k` and retries `r` more times: `waitAfter k, waitAfter (k+1),
...` (specification-side description of the loop's wait sequence). -/
def waitsList (k : Nat) : Nat → List Nat
  | 0 => []
  | r + 1 => waitAfter k :: waitsList (k + 1) r

/-- Witness outcome stream for the retry decorator: transient HTTP 504
failures on attempts 1..3, success from attempt 4 on. -/
def retryWitnessStream : Nat → Except MomErr (Option PVStatus) :=
  fun i => if i < 4 then .error (.httpError 504) else .ok (some ⟨some []⟩)

/-- Concrete processing instant used by the witnesses: 2024-03-15T12:00Z,
so the audit window is February 2024. -/
def nowMarch2024 : PyDateTime := ⟨2024, 3, 15, 12, 0, 0, 0, some 0⟩

/-- Witness entry inside the February 2024 window (string timestamps with
a trailing Z). -/
def entryFeb : JobLogEntry :=
  ⟨some (.s "Udvikler"), some (.s "Firma A"), some (.s "5000"), some (.s "Odense"),
    some (.s "1200"), .str "2024-02-10T08:00:00Z", .str "2024-02-10T09:00:00Z"⟩

/-- Witness entry with the same five descriptive fields as `entryFeb` but
different timestamps, still inside the window. -/
def entryFebDup : JobLogEntry :=
  ⟨some (.s "Udvikler"), some (.s "Firma A"), some (.s "5000"), some (.s "Odense"),
    some (.s "1200"), .dt ⟨2024, 2, 20, 14, 30, 0, 0, some 0⟩,
    .dt ⟨2024, 2, 20, 15, 0, 0, 0, some 0⟩⟩

/-- Witness entry outside the window (January 2024). -/
def entryJan : JobLogEntry :=
  ⟨some (.s "Sælger"), some (.s "Firma B"), some (.s "5200"), some (.s "Odense"),
    some (.s "800"), .dt ⟨2024, 1, 10, 8, 0, 0, 0, some 0⟩,
    .dt ⟨2024, 1, 10, 8, 0, 0, 0, some 0⟩⟩

/-- Counterexample entry: the distance field holds the number 1200. -/
def entryDistInt : JobLogEntry :=
  ⟨some (.s "Udvikler"), some (.s "Firma A"), some (.s "5000"), some (.s "Odense"),
    some (.i 1200), .dt ⟨2024, 2, 5, 8, 0, 0, 0, some 0⟩,
    .dt ⟨2024, 2, 5, 8, 0, 0, 0, some 0⟩⟩

/-- Counterexample entry: identical to `entryDistInt` except that the
distance field holds the string "1200" — a different Python value with
the same string form. -/
def entryDistStr : JobLogEntry :=
  ⟨some (.s "Udvikler"), some (.s "Firma A"), some (.s "5000"), some (.s "Odense"),
    some (.s "1200"), .dt ⟨2024, 2, 6, 9, 0, 0, 0, some 0⟩,
    .dt ⟨2024, 2, 6, 9, 0, 0, 0, some 0⟩⟩

/-- Counterexample entry: aware submission timestamp before the window,
naive update timestamp — the update comparison is never evaluated. -/
def entryNaiveUpd : JobLogEntry :=
  ⟨some (.s "Udvikler"), some (.s "Firma A"), some (.s "5000"), some (.s "Odense"),
    some (.s "1200"), .dt ⟨2024, 1, 5, 8, 0, 0, 0, some 0⟩, .str "2024-02-15T10:00:00"⟩

/-- Witness entry inside the window that differs from `entryFeb` only in
the rendered title. -/
def entryFebTitle2 : JobLogEntry :=
  ⟨some (.s "Konsulent"), some (.s "Firma A"), some (.s "5000"), some (.s "Odense"),
    some (.s "1200"), .dt ⟨2024, 2, 12, 10, 0, 0, 0, some 0⟩,
    .dt ⟨2024, 2, 12, 10, 0, 0, 0, some 0⟩⟩

/-- World of a compliant citizen: not exempt, requirement "1 job", one
job log entry inside the window. -/
def worldCompliant : World :=
  ⟨some (), some ⟨some []⟩, some ⟨some "1 job"⟩, some [entryFeb], some (), nowMarch2024⟩

/-- World of an exempt citizen; the later fetches are deliberately absent
to show they are never consulted. -/
def worldExempt : World :=
  ⟨some (), some ⟨some ["Brug af Joblog"]⟩, none, none, none, nowMarch2024⟩

theorem pyLE_aware (a b : PyDateTime) (ha : a.tzOffsetMinutes.isSome = true)
    (hb : b.tzOffsetMinutes.isSome = true) :
    pyLE a b = .ok (decide (specInstant a ≤ specInstant b)) := by
  unfold pyLE
  cases h1 : a.tzOffsetMinutes with
  | none => rw [h1] at ha; simp at ha
  | some oa =>
    cases h2 : b.tzOffsetMinutes with
    | none => rw [h2] at hb; simp at hb
    | some ob => rfl

theorem inWindow_spec (lo hi : PyDateTime) (t : PyTime)
    (hlo : lo.tzOffsetMinutes.isSome = true) (hhi : hi.tzOffsetMinutes.isSome = true)
    (ht : parsesAware t = true) :
    inWindow lo hi t = .ok (inWinB lo hi t) := by
  unfold parsesAware at ht
  unfold inWindow inWinB
  cases hp : parse_date t with
  | error e => rw [hp] at ht; simp at ht
  | ok d =>
    rw [hp] at ht
    have ht' : d.tzOffsetMinutes.isSome = true := ht
    show (match pyLE lo d with
      | .error e => Except.error e
      | .ok false => Except.ok false
      | .ok true => pyLE d hi) =
      .ok (decide (specInstant lo ≤ specInstant d) && decide (specInstant d ≤ specInstant hi))
    rw [pyLE_aware lo d hlo ht', pyLE_aware d hi ht' hhi]
    by_cases h1 : specInstant lo ≤ specInstant d <;>
      by_cases h2 : specInstant d ≤ specInstant hi <;> simp [h1, h2]

theorem entryInWindow_spec (lo hi : PyDateTime) (e : JobLogEntry)
    (hlo : lo.tzOffsetMinutes.isSome = true) (hhi : hi.tzOffsetMinutes.isSome = true)
    (hs : parsesAware e.submissionDate = true) (hu : parsesAware e.updatedAt = true) :
    entryInWindow lo hi e = .ok (keptEntry lo hi e) := by
  unfold entryInWindow keptEntry
  rw [inWindow_spec lo hi e.submissionDate hlo hhi hs,
    inWindow_spec lo hi e.updatedAt hlo hhi hu]
  cases inWinB lo hi e.submissionDate <;> simp

theorem filterExc_spec (lo hi : PyDateTime)
    (hlo : lo.tzOffsetMinutes.isSome = true) (hhi : hi.tzOffsetMinutes.isSome = true)
    (l : List JobLogEntry)
    (h : ∀ e ∈ l, parsesAware e.submissionDate = true ∧ parsesAware e.updatedAt = true) :
    filterExc (entryInWindow lo hi) l = .ok (l.filter (keptEntry lo hi)) := by
  revert h
  induction l with
  | nil => intro _; rfl
  | cons x xs ih =>
    intro h
    have hx := h x (List.mem_cons_self x xs)
    have hxs := ih (fun e he => h e (List.mem_cons_of_mem x he))
    unfold filterExc
    rw [entryInWindow_spec lo hi x hlo hhi hx.1 hx.2, hxs]
    cases hk : keptEntry lo hi x <;> simp [List.filter_cons, hk]

theorem startDato_eq (now : PyDateTime) :
    startDato now = ⟨(prevMonth now.year now.month).1, (prevMonth now.year now.month).2,
      1, 0, 0, 0, 0, now.tzOffsetMinutes⟩ := by
  unfold startDato subOneDay
  simp

theorem slutDato_eq (now : PyDateTime) :
    slutDato now = ⟨(prevMonth now.year now.month).1, (prevMonth now.year now.month).2,
      daysInMonth (prevMonth now.year now.month).1 (prevMonth now.year now.month).2,
      23, 59, 59, 999999, now.tzOffsetMinutes⟩ := by
  unfold slutDato subOneMicro subOneDay
  simp

theorem hent_joblog_spec (now : PyDateTime) (l : List JobLogEntry)
    (hne : l ≠ []) (hz : now.tzOffsetMinutes = some 0)
    (hp : ∀ e ∈ l, parsesAware e.submissionDate = true ∧ parsesAware e.updatedAt = true) :
    hent_joblog_aktiviteter (some l) now =
      .ok ((collectKeys [] (l.filter (keptEntry (startDato now) (slutDato now)))).length) := by
  have hlo : (startDato now).tzOffsetMinutes.isSome = true := by
    rw [startDato_eq]; simp [hz]
  have hhi : (slutDato now).tzOffsetMinutes.isSome = true := by
    rw [slutDato_eq]; simp [hz]
  have hie : l.isEmpty = false := by
    cases l with
    | nil => exact absurd rfl hne
    | cons a as => rfl
  simp only [hent_joblog_aktiviteter, hie, Bool.false_eq_true, if_false]
  rw [filterExc_spec (startDato now) (slutDato now) hlo hhi l hp]

theorem daysInMonth_pos (y m : Nat) : 1 ≤ daysInMonth y m := by
  unfold daysInMonth
  split_ifs <;> omega

theorem daysFromCivil_day_mono (y m : Nat) {d1 d2 : Nat} (h : d1 ≤ d2) :
    daysFromCivil y m d1 ≤ daysFromCivil y m d2 := by
  simp only [daysFromCivil]
  split_ifs <;> omega

theorem daysFromCivil_lower (y m : Nat) (hy : 1 ≤ y) (hm1 : 1 ≤ m) (hm2 : m ≤ 12)
    (hne : 2 ≤ y ∨ 2 ≤ m) : 306 < daysFromCivil y m 1 := by
  simp only [daysFromCivil]
  interval_cases m <;> simp_all <;> omega

theorem specInstant_start_le_slut (now : PyDateTime) (hz : now.tzOffsetMinutes = some 0) :
    specInstant (startDato now) ≤ specInstant (slutDato now) := by
  rw [startDato_eq, slutDato_eq]
  unfold specInstant naiveMicros
  simp only [hz]
  have h := daysFromCivil_day_mono (prevMonth now.year now.month).1
    (prevMonth now.year now.month).2
    (daysInMonth_pos (prevMonth now.year now.month).1 (prevMonth now.year now.month).2)
  simp only [Option.getD_some]
  push_cast
  omega

theorem specInstant_min_lt_start (now : PyDateTime) (hz : now.tzOffsetMinutes = some 0)
    (hm1 : 1 ≤ now.month) (hm2 : now.month ≤ 12) (hy : 2 ≤ now.year) :
    specInstant datetimeMinUtc < specInstant (startDato now) := by
  rw [startDato_eq]
  unfold specInstant naiveMicros datetimeMinUtc
  simp only [hz, Option.getD_some]
  have h : 306 < daysFromCivil (prevMonth now.year now.month).1 (prevMonth now.year now.month).2 1 := by
    apply daysFromCivil_lower
    · unfold prevMonth; split_ifs <;> omega
    · unfold prevMonth; split_ifs <;> (simp; try omega)
    · unfold prevMonth; split_ifs <;> (simp; try omega)
    · unfold prevMonth; split_ifs
      · right; norm_num
      · left; simp; omega
  have hmin : daysFromCivil 1 1 1 = 306 := by decide
  rw [hmin]
  push_cast
  omega

theorem replaceZ_foldr_no_Z (l : List Char) (acc : List Char) (h : 'Z' ∉ l) :
    l.foldr (fun c a => if c = 'Z' then '+' :: '0' :: '0' :: ':' :: '0' :: '0' :: a else c :: a)
      acc = l ++ acc := by
  induction l with
  | nil => rfl
  | cons x xs ih =>
    have hx : x ≠ 'Z' := fun hxz => h (by simp [hxz])
    have hxs : 'Z' ∉ xs := fun hz => h (List.mem_cons_of_mem x hz)
    simp [List.foldr_cons, hx, ih hxs]

theorem replaceZ_trailing_Z (s : String) (h : 'Z' ∉ s.data) :
    replaceZ (s ++ "Z") = s ++ "+00:00" := by
  unfold replaceZ
  apply String.ext
  rw [String.data_append, String.data_append]
  rw [show ("Z" : String).data = ['Z'] from rfl, List.foldr_append]
  exact replaceZ_foldr_no_Z s.data _ h

theorem replaceZ_no_Z (s : String) (h : 'Z' ∉ s.data) : replaceZ s = s := by
  unfold replaceZ
  apply String.ext
  show List.foldr _ [] s.data = s.data
  rw [replaceZ_foldr_no_Z s.data [] h, List.append_nil]

/-- Claim C2: `hent_joblog_aktiviteter` keeps exactly the entries whose
submission and update timestamps both lie in the prior-calendar-month
window, inclusive on both ends; the window is
[first day of prior month 00:00:00, last day of prior month
23:59:59.999999] in the clock of `now` (UTC); membership boundaries are
exact to the microsecond; a trailing `Z` is read as offset `+00:00`; and
a missing timestamp normalizes to `datetime.min` (UTC) and is excluded.
Stated for aware-parsing timestamps; mixed-naive inputs are the subject
of claim C9, the empty/absent log of claim C5. -/
theorem C2_window_filter_spec (now : PyDateTime) (hz : now.tzOffsetMinutes = some 0)
    (hm1 : 1 ≤ now.month) (hm2 : now.month ≤ 12) (hy : 2 ≤ now.year) :
    (startDato now = ⟨(prevMonth now.year now.month).1, (prevMonth now.year now.month).2,
        1, 0, 0, 0, 0, some 0⟩ ∧
      slutDato now = ⟨(prevMonth now.year now.month).1, (prevMonth now.year now.month).2,
        daysInMonth (prevMonth now.year now.month).1 (prevMonth now.year now.month).2,
        23, 59, 59, 999999, some 0⟩) ∧
    (∀ l : List JobLogEntry, l ≠ [] →
      (∀ e ∈ l, parsesAware e.submissionDate = true ∧ parsesAware e.updatedAt = true) →
      hent_joblog_aktiviteter (some l) now =
        .ok ((collectKeys [] (l.filter (keptEntry (startDato now) (slutDato now)))).length)) ∧
    (∀ t d, parse_date t = .ok d → d.tzOffsetMinutes.isSome = true →
      (inWinB (startDato now) (slutDato now) t = true ↔
        (specInstant (startDato now) ≤ specInstant d ∧
          specInstant d ≤ specInstant (slutDato now)))) ∧
    (∀ d : PyDateTime, d.tzOffsetMinutes = some 0 →
      specInstant d = specInstant (startDato now) →
      inWinB (startDato now) (slutDato now) (.dt d) = true) ∧
    (∀ d : PyDateTime, d.tzOffsetMinutes = some 0 →
      specInstant d + 1 = specInstant (startDato now) →
      inWinB (startDato now) (slutDato now) (.dt d) = false) ∧
    (∀ d : PyDateTime, d.tzOffsetMinutes = some 0 →
      specInstant d = specInstant (slutDato now) →
      inWinB (startDato now) (slutDato now) (.dt d) = true) ∧
    (∀ d : PyDateTime, d.tzOffsetMinutes = some 0 →
      specInstant d = specInstant (slutDato now) + 1 →
      inWinB (startDato now) (slutDato now) (.dt d) = false) ∧
    (∀ s : String, 'Z' ∉ s.data →
      parse_date (.str (s ++ "Z")) = parse_date (.str (s ++ "+00:00"))) ∧
    (parse_date .noneVal = .ok datetimeMinUtc ∧
      inWinB (startDato now) (slutDato now) .noneVal = false) := by
  have hse := specInstant_start_le_slut now hz
  have hmin := specInstant_min_lt_start now hz hm1 hm2 hy
  refine ⟨⟨by rw [startDato_eq, hz], by rw [slutDato_eq, hz]⟩, ?_, ?_, ?_, ?_, ?_, ?_, ?_, ?_⟩
  · intro l hne hp
    exact hent_joblog_spec now l hne hz hp
  · intro t d hp hd
    unfold inWinB
    rw [hp]
    simp
  · intro d _ hdi
    unfold inWinB parse_date
    simp [hdi, hse]
  · intro d _ hdi
    unfold inWinB parse_date
    simp
    intro hcon
    omega
  · intro d _ hdi
    unfold inWinB parse_date
    simp [hdi, hse]
  · intro d _ hdi
    unfold inWinB parse_date
    simp
    intro hcon
    omega
  · intro s hs
    have h1 : replaceZ (s ++ "Z") = s ++ "+00:00" := replaceZ_trailing_Z s hs
    have h2 : replaceZ (s ++ "+00:00") = s ++ "+00:00" := by
      apply replaceZ_no_Z
      rw [String.data_append]
      intro hmem
      rcases List.mem_append.mp hmem with h | h
      · exact hs h
      · simp at h
    simp only [parse_date]
    rw [h1, h2]
  · constructor
    · rfl
    · unfold inWinB parse_date
      simp
      intro hcon
      have : specInstant datetimeMinUtc < specInstant datetimeMinUtc := by
        calc specInstant datetimeMinUtc < specInstant (startDato now) := hmin
        _ ≤ specInstant datetimeMinUtc := hcon
      omega

/-- Witness for C2 at 2024-03-15T12:00Z: the window is February 2024
(2024-02-01T00:00:00+00:00 .. 2024-02-29T23:59:59.999999+00:00); of three
entries — two inside the window sharing one composite key, one in
January — exactly one distinct key is counted. -/
theorem C2_window_filter_spec_witness :
    (nowMarch2024.tzOffsetMinutes = some 0 ∧ 1 ≤ nowMarch2024.month ∧
      nowMarch2024.month ≤ 12 ∧ 2 ≤ nowMarch2024.year) ∧
    startDato nowMarch2024 = ⟨2024, 2, 1, 0, 0, 0, 0, some 0⟩ ∧
    slutDato nowMarch2024 = ⟨2024, 2, 29, 23, 59, 59, 999999, some 0⟩ ∧
    hent_joblog_aktiviteter (some [entryFeb, entryFebDup, entryJan]) nowMarch2024 = .ok 1 := by
  have h := C2_window_filter_spec nowMarch2024 rfl (by decide) (by decide) (by decide)
  refine ⟨⟨rfl, by decide, by decide, by decide⟩, ?_, ?_, ?_⟩
  · exact h.1.1.trans (by decide)
  · exact h.1.2.trans (by decide)
  · have h3 := h.2.1 [entryFeb, entryFebDup, entryJan] (by decide) (by decide)
    refine h3.trans ?_
    have hc : (collectKeys [] (List.filter
        (keptEntry (startDato nowMarch2024) (slutDato nowMarch2024))
        [entryFeb, entryFebDup, entryJan])).length = 1 := by decide
    rw [hc]

/-- Claim C5 (amended): `hent_joblog_aktiviteter` raises the
`WorkItemError` soft error for a falsy job log — both when the log is
absent and when it is an empty entry list, which the guard
`if not joblog` conflates with absence; for a nonempty log of
aware-parsing entries it succeeds with a count. -/
theorem C5_absent_or_empty_joblog (now : PyDateTime) :
    hent_joblog_aktiviteter none now =
      .error (.workItemError "Joblog ikke fundet i Momentum.") ∧
    hent_joblog_aktiviteter (some []) now =
      .error (.workItemError "Joblog ikke fundet i Momentum.") ∧
    (∀ l : List JobLogEntry, l ≠ [] → now.tzOffsetMinutes = some 0 →
      (∀ e ∈ l, parsesAware e.submissionDate = true ∧ parsesAware e.updatedAt = true) →
      ∃ n, hent_joblog_aktiviteter (some l) now = .ok n) := by
  exact ⟨rfl, rfl, fun l hne hz hp => ⟨_, hent_joblog_spec now l hne hz hp⟩⟩

/-- Witness for C5 (amended): at the concrete instant, the empty list is
rejected with the soft error while a one-entry log yields a count. -/
theorem C5_absent_or_empty_joblog_witness :
    hent_joblog_aktiviteter (some []) nowMarch2024 =
      .error (.workItemError "Joblog ikke fundet i Momentum.") ∧
    ([entryFeb] ≠ ([] : List JobLogEntry)) ∧
    (∃ n, hent_joblog_aktiviteter (some [entryFeb]) nowMarch2024 = .ok n) := by
  refine ⟨(C5_absent_or_empty_joblog nowMarch2024).2.1, by decide,
    (C5_absent_or_empty_joblog nowMarch2024).2.2 [entryFeb] (by decide) rfl (by decide)⟩

/-- Counterexample to claim C5 as stated: the empty job log — a valid
sequence, distinct from an absent one — makes the operation raise the
soft error rather than succeed with 0. -/
theorem C5_empty_joblog_counterexample :
    hent_joblog_aktiviteter (some []) nowMarch2024 =
      .error (.workItemError "Joblog ikke fundet i Momentum.") ∧
    hent_joblog_aktiviteter (some []) nowMarch2024 ≠ .ok 0 := by
  refine ⟨rfl, ?_⟩
  intro hcon
  exact Except.noConfusion hcon

/-- Claim C6: `fritaget_for_joblog` raises the soft error exactly when no
exemption-status record is returned (an empty exemption set is not an
error), returns true iff the set contains the literal "Brug af Joblog",
emits exactly one partial-completion tracking call on true, and the
driving loop then performs no further fetches: its behaviour is
independent of the requirement, job log, caseworker and clock fields. -/
theorem C6_exemption_check :
    (fritaget_for_joblog none =
      ([], .error (.workItemError "Personvisitationstatus ikke fundet i Momentum."))) ∧
    (∀ st, ∃ b, (fritaget_for_joblog (some st)).2 = .ok b) ∧
    (∀ st, (fritaget_for_joblog (some st)).2 = .ok true ↔
      ∃ names, st.personExemptNames = some names ∧ "Brug af Joblog" ∈ names) ∧
    (∀ st names, st.personExemptNames = some names → "Brug af Joblog" ∈ names →
      fritaget_for_joblog (some st) =
        ([.report "Manuel behandling"
            "Der skal ikke tjekkes mere, da borger er fritaget for brug af joblog.",
          .trackPartialTask], .ok true)) ∧
    (∀ (st : PVStatus) (names : List String) (jd1 jd2 : Option JobDef)
        (jl1 jl2 : Option (List JobLogEntry)) (md1 md2 : Option Unit)
        (now1 now2 : PyDateTime),
      st.personExemptNames = some names → "Brug af Joblog" ∈ names →
      process_workqueue_item ⟨some (), some st, jd1, jl1, md1, now1⟩ =
        process_workqueue_item ⟨some (), some st, jd2, jl2, md2, now2⟩ ∧
      process_workqueue_item ⟨some (), some st, jd1, jl1, md1, now1⟩ =
        ([.report "Manuel behandling"
            "Der skal ikke tjekkes mere, da borger er fritaget for brug af joblog.",
          .trackPartialTask], .ok ())) := by
  have hexempt : ∀ (st : PVStatus) (names : List String),
      st.personExemptNames = some names → "Brug af Joblog" ∈ names →
      fritaget_for_joblog (some st) =
        ([.report "Manuel behandling"
            "Der skal ikke tjekkes mere, da borger er fritaget for brug af joblog.",
          .trackPartialTask], .ok true) := by
    intro st names hn hm
    simp only [fritaget_for_joblog, hn]
    rw [if_pos ⟨List.ne_nil_of_mem hm, hm⟩]
  refine ⟨rfl, ?_, ?_, hexempt, ?_⟩
  · intro st
    cases hn : st.personExemptNames with
    | none => exact ⟨false, by simp [fritaget_for_joblog, hn]⟩
    | some names =>
      by_cases hm : names ≠ [] ∧ "Brug af Joblog" ∈ names
      · exact ⟨true, by simp only [fritaget_for_joblog, hn]; rw [if_pos hm]⟩
      · exact ⟨false, by simp only [fritaget_for_joblog, hn]; rw [if_neg hm]⟩
  · intro st
    constructor
    · intro h
      cases hn : st.personExemptNames with
      | none => simp [fritaget_for_joblog, hn] at h
      | some names =>
        by_cases hm : names ≠ [] ∧ "Brug af Joblog" ∈ names
        · exact ⟨names, rfl, hm.2⟩
        · simp only [fritaget_for_joblog, hn] at h
          rw [if_neg hm] at h
          simp at h
    · rintro ⟨names, hn, hm⟩
      rw [hexempt st names hn hm]
  · intro st names jd1 jd2 jl1 jl2 md1 md2 now1 now2 hn hm
    have hf := hexempt st names hn hm
    constructor
    · simp only [process_workqueue_item, hf]
    · simp only [process_workqueue_item, hf]

/-- Witness for C6: a status record whose exemption set is exactly
["Brug af Joblog"] makes the check succeed with true, one report and one
partial-completion tracking call. -/
theorem C6_exemption_check_witness :
    ((⟨some ["Brug af Joblog"]⟩ : PVStatus).personExemptNames = some ["Brug af Joblog"] ∧
      "Brug af Joblog" ∈ ["Brug af Joblog"]) ∧
    fritaget_for_joblog (some ⟨some ["Brug af Joblog"]⟩) =
      ([.report "Manuel behandling"
          "Der skal ikke tjekkes mere, da borger er fritaget for brug af joblog.",
        .trackPartialTask], .ok true) := by
  exact ⟨⟨rfl, by decide⟩,
    C6_exemption_check.2.2.2.1 ⟨some ["Brug af Joblog"]⟩ ["Brug af Joblog"] rfl (by decide)⟩

/-- Claim C3: the compliance decision, in order: a positive requirement
with zero activities yields the no-activity remediation task, report and
a full-completion tracking call; a positive activity count strictly below
the requirement yields the distinct too-few remediation task, report and
a full-completion tracking call; otherwise the citizen is compliant and
no side effect at all is produced; and the two remediation descriptions
are distinct. -/
theorem C3_compliance_decision (krav antal : Int) (hk : 0 < krav) :
    (antal = 0 → kontroller_jobsoegning (some ()) krav antal =
      ([.opretOpgave "Der var ikke registreret nogen jobs i joblog.",
        .report "Behandlet" "Der var ikke registreret nogen jobs i joblog.", .trackTask],
       .ok .NoActivityRegistered)) ∧
    (0 < antal → antal < krav → kontroller_jobsoegning (some ()) krav antal =
      ([.opretOpgave "Der er registreret for få job i joblog.",
        .report "Behandlet" "Der er registreret for få job i joblog.", .trackTask],
       .ok .InsufficientActivity)) ∧
    (krav ≤ antal → kontroller_jobsoegning (some ()) krav antal = ([], .ok .Compliant)) ∧
    ("Der var ikke registreret nogen jobs i joblog." ≠
      "Der er registreret for få job i joblog.") := by
  refine ⟨?_, ?_, ?_, by decide⟩
  · intro h0
    simp only [kontroller_jobsoegning, opret_opgave_til_sagsbehandler]
    rw [if_pos ⟨hk, h0⟩]
    rfl
  · intro h1 h2
    simp only [kontroller_jobsoegning, opret_opgave_til_sagsbehandler]
    rw [if_neg (fun hc => by omega), if_pos h2]
    rfl
  · intro h3
    simp only [kontroller_jobsoegning, opret_opgave_til_sagsbehandler]
    rw [if_neg (fun hc => by omega), if_neg (by omega)]

/-- Witness for C3: the decision table (5,0), (5,3), (5,5), (5,6). -/
theorem C3_compliance_decision_witness :
    ((0:Int) < 5) ∧
    (kontroller_jobsoegning (some ()) 5 0).2 = .ok .NoActivityRegistered ∧
    (kontroller_jobsoegning (some ()) 5 3).2 = .ok .InsufficientActivity ∧
    (kontroller_jobsoegning (some ()) 5 5).2 = .ok .Compliant ∧
    (kontroller_jobsoegning (some ()) 5 6).2 = .ok .Compliant := by
  refine ⟨by norm_num, ?_, ?_, ?_, ?_⟩
  · rw [(C3_compliance_decision 5 0 (by norm_num)).1 rfl]
  · rw [(C3_compliance_decision 5 3 (by norm_num)).2.1 (by norm_num) (by norm_num)]
  · rw [(C3_compliance_decision 5 5 (by norm_num)).2.2.1 (by norm_num)]
  · rw [(C3_compliance_decision 5 6 (by norm_num)).2.2.1 (by norm_num)]

/-- Claim C10: `hent_krav_til_jobsoegning` never returns the quota 0 —
a successful non-None result is at least 1 — and consequently, for the
requirement values the driving loop can pass on, the compliance check
enters the no-activity branch exactly when the count is zero (the
`requirement > 0` conjunct is always true there). -/
theorem C10_requirement_positive :
    (∀ (med : Option Unit) (jd : Option JobDef) (n : Nat),
      (hent_krav_til_jobsoegning med jd).2 = .ok (some n) → 1 ≤ n) ∧
    (∀ krav antal : Int, 1 ≤ krav →
      ((kontroller_jobsoegning (some ()) krav antal).2 = .ok .NoActivityRegistered ↔
        antal = 0)) := by
  constructor
  · intro med jd n h
    rcases jd with _ | ⟨ot⟩
    · simp [hent_krav_til_jobsoegning] at h
    rcases ot with _ | t
    · rcases med with _ | ⟨⟩ <;>
        simp [hent_krav_til_jobsoegning, opret_opgave_til_sagsbehandler] at h
    by_cases hlen : t.length = 0
    · rcases med with _ | ⟨⟩ <;>
        simp [hent_krav_til_jobsoegning, opret_opgave_til_sagsbehandler, hlen] at h
    rcases hr : reSearchDigitsJob t.data with _ | k
    · rcases med with _ | ⟨⟩ <;>
        simp [hent_krav_til_jobsoegning, opret_opgave_til_sagsbehandler, hlen, hr] at h
    by_cases hk : k = 0
    · simp [hent_krav_til_jobsoegning, hlen, hr, hk] at h
    · simp [hent_krav_til_jobsoegning, hlen, hr, hk] at h
      omega
  · intro krav antal hk
    constructor
    · intro h
      by_cases h0 : antal = 0
      · exact h0
      · exfalso
        simp only [kontroller_jobsoegning, opret_opgave_til_sagsbehandler] at h
        rw [if_neg (fun hc => h0 hc.2)] at h
        by_cases h2 : antal < krav
        · rw [if_pos h2] at h; simp at h
        · rw [if_neg h2] at h; simp at h
    · intro h0
      simp only [kontroller_jobsoegning, opret_opgave_til_sagsbehandler]
      rw [if_pos ⟨by omega, h0⟩]

/-- Witness for C10: "2 job" resolves to the quota 2 ≥ 1, and with
requirement 5 the no-activity branch is taken exactly at count 0. -/
theorem C10_requirement_positive_witness :
    (hent_krav_til_jobsoegning (some ()) (some ⟨some "2 job"⟩)).2 = .ok (some 2) ∧
    1 ≤ 2 ∧
    ((kontroller_jobsoegning (some ()) 5 0).2 = .ok .NoActivityRegistered ↔ (0:Int) = 0) := by
  refine ⟨rfl, ?_, C10_requirement_positive.2 5 0 (by norm_num)⟩
  exact C10_requirement_positive.1 (some ()) (some ⟨some "2 job"⟩) 2 rfl

theorem space_char_cases (c : Char) (h : isSpaceChar c = true) :
    c = ' ' ∨ c = '\t' ∨ c = '\n' ∨ c = '\r' ∨ c = '\x0b' ∨ c = '\x0c' := by
  simpa [isSpaceChar, or_assoc] using h

theorem space_not_digit (c : Char) (h : isSpaceChar c = true) : isDigitChar c = false := by
  rcases space_char_cases c h with h1 | h1 | h1 | h1 | h1 | h1 <;> subst h1 <;> decide

theorem toLower_j_not_space (c : Char) (h : c.toLower = 'j') : isSpaceChar c = false := by
  by_contra hcon
  simp only [Bool.not_eq_false] at hcon
  rcases space_char_cases c hcon with h1 | h1 | h1 | h1 | h1 | h1 <;> subst h1 <;>
    exact absurd h (by decide)

theorem takeWhile_append_stop {α} (p : α → Bool) (l1 : List α) (a : α) (l2 : List α)
    (h1 : ∀ c ∈ l1, p c = true) (h2 : p a = false) :
    (l1 ++ a :: l2).takeWhile p = l1 := by
  induction l1 with
  | nil => simp [List.takeWhile_cons, h2]
  | cons x xs ih =>
    have hx := h1 x (List.mem_cons_self x xs)
    simp [List.takeWhile_cons, hx, ih (fun c hc => h1 c (List.mem_cons_of_mem x hc))]

theorem dropWhile_append_stop {α} (p : α → Bool) (l1 : List α) (a : α) (l2 : List α)
    (h1 : ∀ c ∈ l1, p c = true) (h2 : p a = false) :
    (l1 ++ a :: l2).dropWhile p = a :: l2 := by
  induction l1 with
  | nil => simp [List.dropWhile_cons, h2]
  | cons x xs ih =>
    have hx := h1 x (List.mem_cons_self x xs)
    simp [List.dropWhile_cons, hx, ih (fun c hc => h1 c (List.mem_cons_of_mem x hc))]

theorem matchAt_of_decomp (ds : List Char) (wh : Char) (wt : List Char)
    (c1 c2 c3 : Char) (rest : List Char)
    (hne : ds ≠ []) (hds : ∀ c ∈ ds, isDigitChar c = true)
    (hwh : isSpaceChar wh = true) (hwt : ∀ c ∈ wt, isSpaceChar c = true)
    (hc1 : c1.toLower = 'j') (hc2 : c2.toLower = 'o') (hc3 : c3.toLower = 'b') :
    matchAt (ds ++ (wh :: wt) ++ c1 :: c2 :: c3 :: rest) = some (digitsVal ds) := by
  have hshape : ds ++ (wh :: wt) ++ c1 :: c2 :: c3 :: rest =
      ds ++ wh :: (wt ++ c1 :: c2 :: c3 :: rest) := by simp
  have htw : (ds ++ (wh :: wt) ++ c1 :: c2 :: c3 :: rest).takeWhile isDigitChar = ds := by
    rw [hshape]
    exact takeWhile_append_stop _ ds wh _ hds (space_not_digit wh hwh)
  have hdw : (ds ++ (wh :: wt) ++ c1 :: c2 :: c3 :: rest).dropWhile isDigitChar =
      wh :: (wt ++ c1 :: c2 :: c3 :: rest) := by
    rw [hshape]
    exact dropWhile_append_stop _ ds wh _ hds (space_not_digit wh hwh)
  have hws : ∀ c ∈ wh :: wt, isSpaceChar c = true := by
    intro c hc
    rcases List.mem_cons.mp hc with h | h
    · exact h ▸ hwh
    · exact hwt c h
  have hshape2 : wh :: (wt ++ c1 :: c2 :: c3 :: rest) =
      (wh :: wt) ++ c1 :: c2 :: c3 :: rest := by simp
  have htw2 : (wh :: (wt ++ c1 :: c2 :: c3 :: rest)).takeWhile isSpaceChar = wh :: wt := by
    rw [hshape2]
    exact takeWhile_append_stop _ (wh :: wt) c1 _ hws (toLower_j_not_space c1 hc1)
  have hdw2 : (wh :: (wt ++ c1 :: c2 :: c3 :: rest)).dropWhile isSpaceChar =
      c1 :: c2 :: c3 :: rest := by
    rw [hshape2]
    exact dropWhile_append_stop _ (wh :: wt) c1 _ hws (toLower_j_not_space c1 hc1)
  unfold matchAt
  rw [hdw, htw, htw2, hdw2]
  rw [if_neg (by simpa using hne), if_neg (by simp)]
  show (if c1.toLower = 'j' ∧ c2.toLower = 'o' ∧ c3.toLower = 'b'
      then some (digitsVal ds) else none) = some (digitsVal ds)
  rw [if_pos ⟨hc1, hc2, hc3⟩]

theorem matchAt_some_spec (cs : List Char) (k : Nat) (h : matchAt cs = some k) :
    specPatternAt cs := by
  unfold matchAt at h
  by_cases h1 : (cs.takeWhile isDigitChar).isEmpty
  · rw [if_pos h1] at h; exact absurd h (by simp)
  rw [if_neg h1] at h
  by_cases h2 : ((cs.dropWhile isDigitChar).takeWhile isSpaceChar).isEmpty
  · rw [if_pos h2] at h; exact absurd h (by simp)
  rw [if_neg h2] at h
  rcases hr : (cs.dropWhile isDigitChar).dropWhile isSpaceChar
    with _ | ⟨c1, _ | ⟨c2, _ | ⟨c3, rest⟩⟩⟩
  · rw [hr] at h; exact absurd h (by simp)
  · rw [hr] at h; exact absurd h (by simp)
  · rw [hr] at h; exact absurd h (by simp)
  · rw [hr] at h
    have h' : (if c1.toLower = 'j' ∧ c2.toLower = 'o' ∧ c3.toLower = 'b'
        then some (digitsVal (cs.takeWhile isDigitChar)) else none) = some k := h
    by_cases hc : c1.toLower = 'j' ∧ c2.toLower = 'o' ∧ c3.toLower = 'b'
    · refine ⟨cs.takeWhile isDigitChar, (cs.dropWhile isDigitChar).takeWhile isSpaceChar,
        c1, c2, c3, rest, ?_, ?_, ?_, ?_, ?_, hc.1, hc.2.1, hc.2.2⟩
      · rw [List.append_assoc, ← hr,
          List.takeWhile_append_dropWhile isSpaceChar (cs.dropWhile isDigitChar),
          List.takeWhile_append_dropWhile isDigitChar cs]
      · simpa using h1
      · intro c hc'; exact List.mem_takeWhile_imp hc'
      · simpa using h2
      · intro c hc'; exact List.mem_takeWhile_imp hc'
    · rw [if_neg hc] at h'; exact absurd h' (by simp)

theorem reSearch_head_some (cs : List Char) (k : Nat) (hne : cs ≠ [])
    (h : matchAt cs = some k) : reSearchDigitsJob cs = some k := by
  cases cs with
  | nil => exact absurd rfl hne
  | cons c cs' =>
    unfold reSearchDigitsJob
    rw [h]

theorem reSearch_skip (n : Nat) (cs : List Char)
    (h : ∀ i, i < n → matchAt (cs.drop i) = none) :
    reSearchDigitsJob cs = reSearchDigitsJob (cs.drop n) := by
  induction n generalizing cs with
  | zero => simp
  | succ m ih =>
    cases cs with
    | nil => simp
    | cons c cs' =>
      have h0 := h 0 (Nat.succ_pos m)
      rw [List.drop_zero] at h0
      have hrec := ih cs' (fun i hi => by
        have hh := h (i + 1) (Nat.succ_lt_succ hi)
        rwa [List.drop_succ_cons] at hh)
      simp only [reSearchDigitsJob, h0]
      rw [List.drop_succ_cons]
      exact hrec

/-- Claim C1: requirement resolution from the free-text field, with the
record present: a missing or empty field gives the not-found remediation
path (task, report, full-completion tracking, no quota); text without the
digits-whitespace-job pattern gives the indeterminate remediation path
with a distinct description; a parsed quota of zero gives only a
partial-completion tracking call and no task; a positive parse returns
the quota with no side effects; and the value returned for a matching
text is the integer value of the first digit run followed by whitespace
and the case-insensitive token job. -/
theorem C1_requirement_resolution (t : String) :
    (hent_krav_til_jobsoegning (some ()) (some ⟨none⟩) =
      ([.opretOpgave "\x27Krav til jobsøgning\x27 blev ikke fundet.",
        .report "Behandlet" "\x27Krav til jobsøgning\x27 blev ikke fundet.", .trackTask],
       .ok none)) ∧
    (t.length = 0 → hent_krav_til_jobsoegning (some ()) (some ⟨some t⟩) =
      ([.opretOpgave "\x27Krav til jobsøgning\x27 blev ikke fundet.",
        .report "Behandlet" "\x27Krav til jobsøgning\x27 blev ikke fundet.", .trackTask],
       .ok none)) ∧
    (t.length ≠ 0 → reSearchDigitsJob t.data = none →
      hent_krav_til_jobsoegning (some ()) (some ⟨some t⟩) =
      ([.opretOpgave
          "Der mangler oplysninger om antallet af jobs i \x27Krav til jobsøgning\x27.",
        .report "Behandlet"
          "Der mangler oplysninger om antallet af jobs i \x27Krav til jobsøgning\x27.",
        .trackTask], .ok none)) ∧
    (t.length ≠ 0 → reSearchDigitsJob t.data = some 0 →
      hent_krav_til_jobsoegning (some ()) (some ⟨some t⟩) =
        ([.trackPartialTask], .ok none)) ∧
    (∀ k, t.length ≠ 0 → reSearchDigitsJob t.data = some k → k ≠ 0 →
      hent_krav_til_jobsoegning (some ()) (some ⟨some t⟩) = ([], .ok (some k))) ∧
    (∀ (pre ds : List Char) (wh : Char) (wt : List Char) (c1 c2 c3 : Char) (rest : List Char),
      t.data = pre ++ ds ++ (wh :: wt) ++ c1 :: c2 :: c3 :: rest →
      ds ≠ [] → (∀ c ∈ ds, isDigitChar c = true) →
      isSpaceChar wh = true → (∀ c ∈ wt, isSpaceChar c = true) →
      c1.toLower = 'j' → c2.toLower = 'o' → c3.toLower = 'b' →
      (∀ i, i < pre.length → ¬ specPatternAt (t.data.drop i)) →
      reSearchDigitsJob t.data = some (digitsVal ds)) := by
  refine ⟨rfl, ?_, ?_, ?_, ?_, ?_⟩
  · intro hlen
    simp only [hent_krav_til_jobsoegning, opret_opgave_til_sagsbehandler]
    rw [if_pos hlen]
    rfl
  · intro hlen hr
    simp only [hent_krav_til_jobsoegning, opret_opgave_til_sagsbehandler]
    rw [if_neg hlen, hr]
    rfl
  · intro hlen hr
    simp only [hent_krav_til_jobsoegning, opret_opgave_til_sagsbehandler]
    rw [if_neg hlen, hr]
    rfl
  · intro k hlen hr hk
    simp only [hent_krav_til_jobsoegning, opret_opgave_til_sagsbehandler]
    rw [if_neg hlen, hr]
    show (if k = 0 then ([Effect.trackPartialTask], Except.ok none)
      else ([], Except.ok (some k))) = ([], .ok (some k))
    rw [if_neg hk]
  · intro pre ds wh wt c1 c2 c3 rest hdec hne hds hwh hwt hc1 hc2 hc3 h4
    have hmnone : ∀ i, i < pre.length → matchAt (t.data.drop i) = none := by
      intro i hi
      cases hm : matchAt (t.data.drop i) with
      | none => rfl
      | some k2 => exact absurd (matchAt_some_spec _ k2 hm) (h4 i hi)
    rw [reSearch_skip pre.length t.data hmnone, hdec]
    rw [show pre ++ ds ++ (wh :: wt) ++ c1 :: c2 :: c3 :: rest
        = pre ++ (ds ++ (wh :: wt) ++ c1 :: c2 :: c3 :: rest) by simp]
    rw [List.drop_left]
    have hne2 : ds ++ (wh :: wt) ++ c1 :: c2 :: c3 :: rest ≠ [] := by
      rcases ds with _ | ⟨d0, ds'⟩
      · exact absurd rfl hne
      · simp
    exact reSearch_head_some _ _ hne2
      (matchAt_of_decomp ds wh wt c1 c2 c3 rest hne hds hwh hwt hc1 hc2 hc3)

/-- Witness for C1: the text "5 jobs" — digit run 5, one space, token
job with no preceding context — resolves to the quota 5. -/
theorem C1_requirement_resolution_witness :
    (("5 jobs".length ≠ 0) ∧ reSearchDigitsJob "5 jobs".data = some 5 ∧ 5 ≠ 0) ∧
    hent_krav_til_jobsoegning (some ()) (some ⟨some "5 jobs"⟩) = ([], .ok (some 5)) ∧
    reSearchDigitsJob "5 jobs".data = some (digitsVal ['5']) := by
  refine ⟨⟨by decide, by decide, by decide⟩, ?_, ?_⟩
  · exact (C1_requirement_resolution "5 jobs").2.2.2.2.1 5 (by decide) (by decide) (by decide)
  · exact (C1_requirement_resolution "5 jobs").2.2.2.2.2 [] ['5'] ' ' [] 'j' 'o' 'b' ['s']
      (by decide) (by decide) (by decide) (by decide) (by decide) (by decide) (by decide)
      (by decide) (fun i hi => absurd hi (Nat.not_lt_zero i))

theorem collectKeys_nodup (l : List JobLogEntry) (acc : List String) (hacc : acc.Nodup) :
    (collectKeys acc l).Nodup := by
  induction l generalizing acc with
  | nil => exact hacc
  | cons e es ih =>
    unfold collectKeys
    by_cases hm : jobHash e ∈ acc
    · rw [if_pos hm]; exact ih acc hacc
    · rw [if_neg hm]
      refine ih _ ?_
      simp [List.nodup_append, hacc, hm]

theorem collectKeys_toFinset (l : List JobLogEntry) (acc : List String) :
    (collectKeys acc l).toFinset = acc.toFinset ∪ (l.map jobHash).toFinset := by
  induction l generalizing acc with
  | nil => simp [collectKeys]
  | cons e es ih =>
    unfold collectKeys
    by_cases hm : jobHash e ∈ acc
    · rw [if_pos hm, ih]
      ext x
      simp only [Finset.mem_union, List.mem_toFinset, List.map_cons, List.mem_cons]
      constructor
      · rintro (h | h)
        · exact Or.inl h
        · exact Or.inr (Or.inr h)
      · rintro (h | h | h)
        · exact Or.inl h
        · exact Or.inl (h ▸ hm)
        · exact Or.inr h
    · rw [if_neg hm, ih]
      ext x
      simp only [Finset.mem_union, List.mem_toFinset, List.toFinset_append,
        List.map_cons, List.mem_cons, List.mem_append, List.mem_singleton]
      tauto

theorem collectKeys_length_eq_card (l : List JobLogEntry) :
    (collectKeys [] l).length = (l.map jobHash).toFinset.card := by
  have h1 := collectKeys_nodup l [] List.nodup_nil
  have h2 := collectKeys_toFinset l []
  rw [List.toFinset_nil, Finset.empty_union] at h2
  rw [← h2]
  exact (List.toFinset_card_of_nodup h1).symm

theorem collectKeys_length_perm (l1 l2 : List JobLogEntry) (hp : l1.Perm l2) :
    (collectKeys [] l1).length = (collectKeys [] l2).length := by
  rw [collectKeys_length_eq_card, collectKeys_length_eq_card]
  congr 1
  ext x
  simp only [List.mem_toFinset]
  exact (hp.map jobHash).mem_iff

theorem jobHash_eq_of_fields_eq (e1 e2 : JobLogEntry)
    (h1 : fieldStr e1.title = fieldStr e2.title)
    (h2 : fieldStr e1.companyName = fieldStr e2.companyName)
    (h3 : fieldStr e1.companyPostCode = fieldStr e2.companyPostCode)
    (h4 : fieldStr e1.companyTown = fieldStr e2.companyTown)
    (h5 : fieldStr e1.distanceToCompanyInMeters = fieldStr e2.distanceToCompanyInMeters) :
    jobHash e1 = jobHash e2 := by
  unfold jobHash
  rw [h1, h2, h3, h4, h5]

theorem jobHash_eq_title (e1 e2 : JobLogEntry) (h : jobHash e1 = jobHash e2)
    (h2 : fieldStr e1.companyName = fieldStr e2.companyName)
    (h3 : fieldStr e1.companyPostCode = fieldStr e2.companyPostCode)
    (h4 : fieldStr e1.companyTown = fieldStr e2.companyTown)
    (h5 : fieldStr e1.distanceToCompanyInMeters = fieldStr e2.distanceToCompanyInMeters) :
    fieldStr e1.title = fieldStr e2.title := by
  unfold jobHash at h
  have hd := congrArg String.data h
  simp only [String.data_append, List.append_assoc] at hd
  rw [h2, h3, h4, h5] at hd
  exact String.ext (List.append_cancel_right hd)

theorem jobHash_eq_companyName (e1 e2 : JobLogEntry) (h : jobHash e1 = jobHash e2)
    (h1 : fieldStr e1.title = fieldStr e2.title)
    (h3 : fieldStr e1.companyPostCode = fieldStr e2.companyPostCode)
    (h4 : fieldStr e1.companyTown = fieldStr e2.companyTown)
    (h5 : fieldStr e1.distanceToCompanyInMeters = fieldStr e2.distanceToCompanyInMeters) :
    fieldStr e1.companyName = fieldStr e2.companyName := by
  unfold jobHash at h
  have hd := congrArg String.data h
  simp only [String.data_append, List.append_assoc] at hd
  rw [h1, h3, h4, h5] at hd
  have hd2 := List.append_cancel_left (List.append_cancel_left hd)
  exact String.ext (List.append_cancel_right hd2)

theorem jobHash_eq_companyPostCode (e1 e2 : JobLogEntry) (h : jobHash e1 = jobHash e2)
    (h1 : fieldStr e1.title = fieldStr e2.title)
    (h2 : fieldStr e1.companyName = fieldStr e2.companyName)
    (h4 : fieldStr e1.companyTown = fieldStr e2.companyTown)
    (h5 : fieldStr e1.distanceToCompanyInMeters = fieldStr e2.distanceToCompanyInMeters) :
    fieldStr e1.companyPostCode = fieldStr e2.companyPostCode := by
  unfold jobHash at h
  have hd := congrArg String.data h
  simp only [String.data_append, List.append_assoc] at hd
  rw [h1, h2, h4, h5] at hd
  have hd2 := List.append_cancel_left (List.append_cancel_left
    (List.append_cancel_left (List.append_cancel_left hd)))
  exact String.ext (List.append_cancel_right hd2)

theorem jobHash_eq_companyTown (e1 e2 : JobLogEntry) (h : jobHash e1 = jobHash e2)
    (h1 : fieldStr e1.title = fieldStr e2.title)
    (h2 : fieldStr e1.companyName = fieldStr e2.companyName)
    (h3 : fieldStr e1.companyPostCode = fieldStr e2.companyPostCode)
    (h5 : fieldStr e1.distanceToCompanyInMeters = fieldStr e2.distanceToCompanyInMeters) :
    fieldStr e1.companyTown = fieldStr e2.companyTown := by
  unfold jobHash at h
  have hd := congrArg String.data h
  simp only [String.data_append, List.append_assoc] at hd
  rw [h1, h2, h3, h5] at hd
  have hd2 := List.append_cancel_left (List.append_cancel_left
    (List.append_cancel_left (List.append_cancel_left
      (List.append_cancel_left (List.append_cancel_left hd)))))
  exact String.ext (List.append_cancel_right hd2)

theorem jobHash_eq_distance (e1 e2 : JobLogEntry) (h : jobHash e1 = jobHash e2)
    (h1 : fieldStr e1.title = fieldStr e2.title)
    (h2 : fieldStr e1.companyName = fieldStr e2.companyName)
    (h3 : fieldStr e1.companyPostCode = fieldStr e2.companyPostCode)
    (h4 : fieldStr e1.companyTown = fieldStr e2.companyTown) :
    fieldStr e1.distanceToCompanyInMeters = fieldStr e2.distanceToCompanyInMeters := by
  unfold jobHash at h
  have hd := congrArg String.data h
  simp only [String.data_append, List.append_assoc] at hd
  rw [h1, h2, h3, h4] at hd
  have hd2 := List.append_cancel_left (List.append_cancel_left
    (List.append_cancel_left (List.append_cancel_left
      (List.append_cancel_left (List.append_cancel_left
        (List.append_cancel_left (List.append_cancel_left hd)))))))
  exact String.ext hd2

/-- Claim C4 (amended): in-window entries are counted once per distinct
composite key (space-joined string forms of the five descriptive fields):
entries identical in all five fields but with different in-window
timestamps collapse to one; the count is insertion-order independent; and
changing the STRING FORM of exactly one of the five fields yields two
distinct entries (two different values with equal string forms — e.g. the
number 1200 and the string "1200", or an absent field and the empty
string — collapse, which is what the counterexample exhibits). -/
theorem C4_dedup_composite_key (now : PyDateTime) (hz : now.tzOffsetMinutes = some 0) :
    (∀ e1 e2 : JobLogEntry,
      e1.title = e2.title → e1.companyName = e2.companyName →
      e1.companyPostCode = e2.companyPostCode → e1.companyTown = e2.companyTown →
      e1.distanceToCompanyInMeters = e2.distanceToCompanyInMeters →
      parsesAware e1.submissionDate = true → parsesAware e1.updatedAt = true →
      parsesAware e2.submissionDate = true → parsesAware e2.updatedAt = true →
      keptEntry (startDato now) (slutDato now) e1 = true →
      keptEntry (startDato now) (slutDato now) e2 = true →
      hent_joblog_aktiviteter (some [e1, e2]) now = .ok 1) ∧
    (∀ l1 l2 : List JobLogEntry, l1.Perm l2 → l1 ≠ [] →
      (∀ e ∈ l1, parsesAware e.submissionDate = true ∧ parsesAware e.updatedAt = true) →
      hent_joblog_aktiviteter (some l1) now = hent_joblog_aktiviteter (some l2) now) ∧
    (∀ e1 e2 : JobLogEntry,
      parsesAware e1.submissionDate = true → parsesAware e1.updatedAt = true →
      parsesAware e2.submissionDate = true → parsesAware e2.updatedAt = true →
      keptEntry (startDato now) (slutDato now) e1 = true →
      keptEntry (startDato now) (slutDato now) e2 = true →
      ((fieldStr e1.title ≠ fieldStr e2.title ∧
          fieldStr e1.companyName = fieldStr e2.companyName ∧
          fieldStr e1.companyPostCode = fieldStr e2.companyPostCode ∧
          fieldStr e1.companyTown = fieldStr e2.companyTown ∧
          fieldStr e1.distanceToCompanyInMeters = fieldStr e2.distanceToCompanyInMeters) ∨
        (fieldStr e1.title = fieldStr e2.title ∧
          fieldStr e1.companyName ≠ fieldStr e2.companyName ∧
          fieldStr e1.companyPostCode = fieldStr e2.companyPostCode ∧
          fieldStr e1.companyTown = fieldStr e2.companyTown ∧
          fieldStr e1.distanceToCompanyInMeters = fieldStr e2.distanceToCompanyInMeters) ∨
        (fieldStr e1.title = fieldStr e2.title ∧
          fieldStr e1.companyName = fieldStr e2.companyName ∧
          fieldStr e1.companyPostCode ≠ fieldStr e2.companyPostCode ∧
          fieldStr e1.companyTown = fieldStr e2.companyTown ∧
          fieldStr e1.distanceToCompanyInMeters = fieldStr e2.distanceToCompanyInMeters) ∨
        (fieldStr e1.title = fieldStr e2.title ∧
          fieldStr e1.companyName = fieldStr e2.companyName ∧
          fieldStr e1.companyPostCode = fieldStr e2.companyPostCode ∧
          fieldStr e1.companyTown ≠ fieldStr e2.companyTown ∧
          fieldStr e1.distanceToCompanyInMeters = fieldStr e2.distanceToCompanyInMeters) ∨
        (fieldStr e1.title = fieldStr e2.title ∧
          fieldStr e1.companyName = fieldStr e2.companyName ∧
          fieldStr e1.companyPostCode = fieldStr e2.companyPostCode ∧
          fieldStr e1.companyTown = fieldStr e2.companyTown ∧
          fieldStr e1.distanceToCompanyInMeters ≠ fieldStr e2.distanceToCompanyInMeters)) →
      hent_joblog_aktiviteter (some [e1, e2]) now = .ok 2) := by
  refine ⟨?_, ?_, ?_⟩
  · intro e1 e2 ht hc hp hw hd ha1 ha2 ha3 ha4 hk1 hk2
    rw [hent_joblog_spec now [e1, e2] (by simp) hz (by
      intro e he
      rcases List.mem_cons.mp he with h | h
      · exact h ▸ ⟨ha1, ha2⟩
      · simp only [List.mem_singleton] at h
        exact h ▸ ⟨ha3, ha4⟩)]
    have hkey : jobHash e1 = jobHash e2 :=
      jobHash_eq_of_fields_eq e1 e2 (by rw [ht]) (by rw [hc]) (by rw [hp]) (by rw [hw])
        (by rw [hd])
    simp [List.filter_cons, hk1, hk2, collectKeys, hkey]
  · intro l1 l2 hp hne hall
    have hne2 : l2 ≠ [] := by
      intro h2
      exact hne (List.Perm.eq_nil (h2 ▸ hp))
    have hall2 : ∀ e ∈ l2, parsesAware e.submissionDate = true ∧ parsesAware e.updatedAt = true :=
      fun e he => hall e (hp.symm.subset he)
    rw [hent_joblog_spec now l1 hne hz hall, hent_joblog_spec now l2 hne2 hz hall2]
    exact congrArg Except.ok
      (collectKeys_length_perm _ _ (hp.filter (keptEntry (startDato now) (slutDato now))))
  · intro e1 e2 ha1 ha2 ha3 ha4 hk1 hk2 hcase
    have hkeyne : jobHash e1 ≠ jobHash e2 := by
      intro heq
      rcases hcase with ⟨hne, h2, h3, h4, h5⟩ | ⟨h1, hne, h3, h4, h5⟩ |
        ⟨h1, h2, hne, h4, h5⟩ | ⟨h1, h2, h3, hne, h5⟩ | ⟨h1, h2, h3, h4, hne⟩
      · exact hne (jobHash_eq_title e1 e2 heq h2 h3 h4 h5)
      · exact hne (jobHash_eq_companyName e1 e2 heq h1 h3 h4 h5)
      · exact hne (jobHash_eq_companyPostCode e1 e2 heq h1 h2 h4 h5)
      · exact hne (jobHash_eq_companyTown e1 e2 heq h1 h2 h3 h5)
      · exact hne (jobHash_eq_distance e1 e2 heq h1 h2 h3 h4)
    rw [hent_joblog_spec now [e1, e2] (by simp) hz (by
      intro e he
      rcases List.mem_cons.mp he with h | h
      · exact h ▸ ⟨ha1, ha2⟩
      · simp only [List.mem_singleton] at h
        exact h ▸ ⟨ha3, ha4⟩)]
    simp [List.filter_cons, hk1, hk2, collectKeys, hkeyne, Ne.symm hkeyne]

/-- Witness for C4: at the concrete instant, two in-window entries with
identical five fields and different timestamps count once; swapping the
list order preserves the count; and two in-window entries differing only
in the rendered title count twice. -/
theorem C4_dedup_composite_key_witness :
    (entryFeb.title = entryFebDup.title ∧
      keptEntry (startDato nowMarch2024) (slutDato nowMarch2024) entryFeb = true) ∧
    hent_joblog_aktiviteter (some [entryFeb, entryFebDup]) nowMarch2024 = .ok 1 ∧
    hent_joblog_aktiviteter (some [entryFeb, entryJan]) nowMarch2024 =
      hent_joblog_aktiviteter (some [entryJan, entryFeb]) nowMarch2024 ∧
    hent_joblog_aktiviteter (some [entryFeb, entryFebTitle2]) nowMarch2024 = .ok 2 := by
  have h := C4_dedup_composite_key nowMarch2024 rfl
  refine ⟨⟨rfl, by decide⟩, ?_, ?_, ?_⟩
  · exact h.1 entryFeb entryFebDup rfl rfl rfl rfl rfl (by decide) (by decide) (by decide)
      (by decide) (by decide) (by decide)
  · exact h.2.1 [entryFeb, entryJan] [entryJan, entryFeb]
      (List.Perm.swap entryJan entryFeb []) (by simp) (by decide)
  · exact h.2.2 entryFeb entryFebTitle2 (by decide) (by decide) (by decide) (by decide)
      (by decide) (by decide)
      (Or.inl ⟨by decide, by decide, by decide, by decide, by decide⟩)

/-- Counterexample to claim C4 as stated: two in-window entries that
differ in the distance field — the number 1200 in one, the string "1200"
in the other, different Python values — nonetheless share the composite
key (equal string forms) and collapse to a count of 1 instead of 2. -/
theorem C4_dedup_counterexample :
    entryDistInt.distanceToCompanyInMeters ≠ entryDistStr.distanceToCompanyInMeters ∧
    entryDistInt.title = entryDistStr.title ∧
    entryDistInt.companyName = entryDistStr.companyName ∧
    entryDistInt.companyPostCode = entryDistStr.companyPostCode ∧
    entryDistInt.companyTown = entryDistStr.companyTown ∧
    keptEntry (startDato nowMarch2024) (slutDato nowMarch2024) entryDistInt = true ∧
    keptEntry (startDato nowMarch2024) (slutDato nowMarch2024) entryDistStr = true ∧
    hent_joblog_aktiviteter (some [entryDistInt, entryDistStr]) nowMarch2024 = .ok 1 := by
  refine ⟨by decide, rfl, rfl, rfl, rfl, by decide, by decide, rfl⟩

theorem inWindow_naive_str (lo hi : PyDateTime) (s : String) (d : PyDateTime)
    (hp : parse_date (.str s) = .ok d) (hn : d.tzOffsetMinutes = none)
    (hlo : lo.tzOffsetMinutes = some 0) :
    inWindow lo hi (.str s) = .error .typeError := by
  unfold inWindow
  rw [hp]
  show (match pyLE lo d with
    | .error e => Except.error e
    | .ok false => Except.ok false
    | .ok true => pyLE d hi) = .error .typeError
  unfold pyLE
  rw [hlo, hn]

/-- Claim C9 (amended): with the window ends timezone-aware, a job log
entry whose submissionDate is an ISO string parsing to a naive datetime
makes `hent_joblog_aktiviteter` raise `TypeError`; a naive-parsing
updatedAt does so when the submissionDate lies inside the window (when
the submissionDate already fails the first chained comparison the naive
updatedAt is never compared, which is the counterexample to the claim as
stated). -/
theorem C9_naive_timestamp_typeerror (now : PyDateTime) (hz : now.tzOffsetMinutes = some 0)
    (s : String) (d : PyDateTime) (hp : parse_date (.str s) = .ok d)
    (hn : d.tzOffsetMinutes = none) :
    (∀ (e : JobLogEntry) (rest : List JobLogEntry), e.submissionDate = .str s →
      hent_joblog_aktiviteter (some (e :: rest)) now = .error .typeError) ∧
    (∀ (e : JobLogEntry) (rest : List JobLogEntry) (d1 : PyDateTime),
      e.submissionDate = .dt d1 → d1.tzOffsetMinutes = some 0 →
      specInstant (startDato now) ≤ specInstant d1 →
      specInstant d1 ≤ specInstant (slutDato now) →
      e.updatedAt = .str s →
      hent_joblog_aktiviteter (some (e :: rest)) now = .error .typeError) := by
  have hlo : (startDato now).tzOffsetMinutes = some 0 := by rw [startDato_eq, hz]
  have hhi : (slutDato now).tzOffsetMinutes = some 0 := by rw [slutDato_eq, hz]
  constructor
  · intro e rest hsub
    have hew : entryInWindow (startDato now) (slutDato now) e = .error .typeError := by
      unfold entryInWindow
      rw [hsub, inWindow_naive_str _ _ s d hp hn hlo]
    have hfe : filterExc (entryInWindow (startDato now) (slutDato now)) (e :: rest) =
        .error .typeError := by
      unfold filterExc
      rw [hew]
    simp only [hent_joblog_aktiviteter, List.isEmpty_cons, Bool.false_eq_true, if_false, hfe]
  · intro e rest d1 hsub hd1 hge hle hupd
    have h1 : inWindow (startDato now) (slutDato now) e.submissionDate = .ok true := by
      rw [hsub]
      unfold inWindow
      show (match pyLE (startDato now) d1 with
        | .error e => Except.error e
        | .ok false => Except.ok false
        | .ok true => pyLE d1 (slutDato now)) = .ok true
      rw [pyLE_aware _ _ (by simp [hlo]) (by simp [hd1]),
        pyLE_aware _ _ (by simp [hd1]) (by simp [hhi])]
      simp [hge, hle]
    have hew : entryInWindow (startDato now) (slutDato now) e = .error .typeError := by
      unfold entryInWindow
      rw [h1, hupd, inWindow_naive_str _ _ s d hp hn hlo]
    have hfe : filterExc (entryInWindow (startDato now) (slutDato now)) (e :: rest) =
        .error .typeError := by
      unfold filterExc
      rw [hew]
    simp only [hent_joblog_aktiviteter, List.isEmpty_cons, Bool.false_eq_true, if_false, hfe]

/-- Witness for C9 (amended): a single entry whose submissionDate is the
naive string "2024-02-15T10:00:00" makes the count raise TypeError. -/
theorem C9_naive_timestamp_typeerror_witness :
    (nowMarch2024.tzOffsetMinutes = some 0 ∧
      parse_date (.str "2024-02-15T10:00:00") = .ok ⟨2024, 2, 15, 10, 0, 0, 0, none⟩) ∧
    hent_joblog_aktiviteter
      (some [⟨some (.s "Udvikler"), some (.s "Firma A"), some (.s "5000"),
        some (.s "Odense"), some (.s "1200"), .str "2024-02-15T10:00:00",
        .str "2024-02-15T10:00:00"⟩]) nowMarch2024 = .error .typeError := by
  refine ⟨⟨rfl, rfl⟩, ?_⟩
  exact (C9_naive_timestamp_typeerror nowMarch2024 rfl "2024-02-15T10:00:00"
    ⟨2024, 2, 15, 10, 0, 0, 0, none⟩ rfl rfl).1 _ [] rfl

/-- Counterexample to claim C9 as stated: an entry whose updatedAt is a
naive-parsing ISO string but whose submissionDate is aware and before the
window start short-circuits the condition, so the function returns the
count 0 instead of raising TypeError. -/
theorem C9_naive_timestamp_counterexample :
    entryNaiveUpd.updatedAt = .str "2024-02-15T10:00:00" ∧
    parse_date (.str "2024-02-15T10:00:00") = .ok ⟨2024, 2, 15, 10, 0, 0, 0, none⟩ ∧
    hent_joblog_aktiviteter (some [entryNaiveUpd]) nowMarch2024 = .ok 0 := by
  exact ⟨rfl, rfl, rfl⟩

theorem trackCount_append (a b : List Effect) :
    trackCount (a ++ b) = trackCount a + trackCount b :=
  List.countP_append _ _ _

theorem fritaget_ok_true (s : Option PVStatus)
    (h : (fritaget_for_joblog s).2 = .ok true) :
    trackCount (fritaget_for_joblog s).1 = 1 := by
  rcases s with _ | st
  · simp [fritaget_for_joblog] at h
  · cases hn : st.personExemptNames with
    | none => simp [fritaget_for_joblog, hn] at h
    | some names =>
      by_cases hm : names ≠ [] ∧ "Brug af Joblog" ∈ names
      · simp only [fritaget_for_joblog, hn]
        rw [if_pos hm]
        rfl
      · simp only [fritaget_for_joblog, hn] at h
        rw [if_neg hm] at h
        simp at h

theorem fritaget_ok_false (s : Option PVStatus)
    (h : (fritaget_for_joblog s).2 = .ok false) :
    (fritaget_for_joblog s).1 = [] := by
  rcases s with _ | st
  · simp [fritaget_for_joblog] at h
  · cases hn : st.personExemptNames with
    | none => simp [fritaget_for_joblog, hn]
    | some names =>
      by_cases hm : names ≠ [] ∧ "Brug af Joblog" ∈ names
      · simp only [fritaget_for_joblog, hn] at h
        rw [if_pos hm] at h
        simp at h
      · simp only [fritaget_for_joblog, hn]
        rw [if_neg hm]

theorem krav_ok_none (med : Option Unit) (jd : Option JobDef)
    (h : (hent_krav_til_jobsoegning med jd).2 = .ok none) :
    trackCount (hent_krav_til_jobsoegning med jd).1 = 1 := by
  rcases jd with _ | ⟨ot⟩
  · simp [hent_krav_til_jobsoegning] at h
  rcases ot with _ | t
  · rcases med with _ | ⟨⟩
    · simp [hent_krav_til_jobsoegning, opret_opgave_til_sagsbehandler] at h
    · rfl
  by_cases hlen : t.length = 0
  · rcases med with _ | ⟨⟩
    · simp [hent_krav_til_jobsoegning, opret_opgave_til_sagsbehandler, hlen] at h
    · simp only [hent_krav_til_jobsoegning, opret_opgave_til_sagsbehandler]
      rw [if_pos hlen]
      rfl
  rcases hr : reSearchDigitsJob t.data with _ | k
  · rcases med with _ | ⟨⟩
    · simp [hent_krav_til_jobsoegning, opret_opgave_til_sagsbehandler, hlen, hr] at h
    · simp only [hent_krav_til_jobsoegning, opret_opgave_til_sagsbehandler]
      rw [if_neg hlen, hr]
      rfl
  by_cases hk : k = 0
  · simp only [hent_krav_til_jobsoegning, opret_opgave_til_sagsbehandler]
    rw [if_neg hlen, hr]
    subst hk
    rfl
  · simp [hent_krav_til_jobsoegning, hlen, hr, hk] at h

theorem krav_ok_some (med : Option Unit) (jd : Option JobDef) (k : Nat)
    (h : (hent_krav_til_jobsoegning med jd).2 = .ok (some k)) :
    (hent_krav_til_jobsoegning med jd).1 = [] := by
  rcases jd with _ | ⟨ot⟩
  · simp [hent_krav_til_jobsoegning] at h
  rcases ot with _ | t
  · rcases med with _ | ⟨⟩ <;>
      simp [hent_krav_til_jobsoegning, opret_opgave_til_sagsbehandler] at h
  by_cases hlen : t.length = 0
  · rcases med with _ | ⟨⟩ <;>
      simp [hent_krav_til_jobsoegning, opret_opgave_til_sagsbehandler, hlen] at h
  rcases hr : reSearchDigitsJob t.data with _ | k2
  · rcases med with _ | ⟨⟩ <;>
      simp [hent_krav_til_jobsoegning, opret_opgave_til_sagsbehandler, hlen, hr] at h
  by_cases hk : k2 = 0
  · simp [hent_krav_til_jobsoegning, hlen, hr, hk] at h
  · simp only [hent_krav_til_jobsoegning, opret_opgave_til_sagsbehandler]
    rw [if_neg hlen, hr]
    show (if k2 = 0 then ([Effect.trackPartialTask], Except.ok none)
      else ([], Except.ok (some k2))).1 = []
    rw [if_neg hk]

theorem kontroller_ok (med : Option Unit) (krav antal : Int) (o : ComplianceOutcome)
    (h : (kontroller_jobsoegning med krav antal).2 = .ok o) :
    trackCount (kontroller_jobsoegning med krav antal).1 = 1 ∨
      (kontroller_jobsoegning med krav antal).1 = [] := by
  unfold kontroller_jobsoegning at h ⊢
  by_cases h1 : krav > 0 ∧ antal = 0
  · rw [if_pos h1] at h ⊢
    rcases med with _ | ⟨⟩
    · simp [opret_opgave_til_sagsbehandler] at h
    · left; rfl
  · rw [if_neg h1] at h ⊢
    by_cases h2 : antal < krav
    · rw [if_pos h2] at h ⊢
      rcases med with _ | ⟨⟩
      · simp [opret_opgave_til_sagsbehandler] at h
      · left; rfl
    · rw [if_neg h2] at h ⊢
      right; rfl

/-- Claim C7 (amended): for every citizen whose processing reaches a
terminal outcome without raising, the completion tracker is called at
most once: exactly once on every path except the Compliant one, which
produces no effect at all — in particular zero tracker calls, which is
the counterexample to the claim as stated. -/
theorem C7_tracker_calls (w : World) (h : (process_workqueue_item w).2 = .ok ()) :
    trackCount (process_workqueue_item w).1 = 1 ∨ (process_workqueue_item w).1 = [] := by
  obtain ⟨wb, wpv, wjd, wjl, wmed, wnow⟩ := w
  simp only [process_workqueue_item] at h ⊢
  rcases wb with _ | ⟨⟩
  · simp at h
  · dsimp only at h ⊢
    rcases hf : (fritaget_for_joblog wpv).2 with e | b
    · simp [hf] at h
    · rcases b with _ | _
      · simp only [hf] at h ⊢
        have hf0 := fritaget_ok_false _ hf
        rcases hk : (hent_krav_til_jobsoegning wmed wjd).2 with e | kr
        · simp [hk] at h
        rcases kr with _ | krav
        · simp only [hk] at h ⊢
          left
          rw [trackCount_append, hf0, krav_ok_none _ _ hk]
          rfl
        · simp only [hk] at h ⊢
          have hk0 := krav_ok_some _ _ _ hk
          rcases hj : hent_joblog_aktiviteter wjl wnow with e | antal
          · simp [hj] at h
          simp only [hj] at h ⊢
          rcases hc : (kontroller_jobsoegning wmed (krav : Int) (antal : Int)).2 with e | o
          · simp [hc] at h
          simp only [hc] at h ⊢
          rcases kontroller_ok _ _ _ _ hc with hone | hnil
          · left
            rw [trackCount_append, trackCount_append, hf0, hk0, hone]
            rfl
          · right
            rw [hf0, hk0, hnil]
            rfl
      · simp only [hf] at h ⊢
        left
        exact fritaget_ok_true _ hf

/-- Witness for C7 (amended): the exempt world reaches a terminal outcome
with exactly one tracker call (a partial-completion one). -/
theorem C7_tracker_calls_witness :
    (process_workqueue_item worldExempt).2 = .ok () ∧
    (trackCount (process_workqueue_item worldExempt).1 = 1 ∨
      (process_workqueue_item worldExempt).1 = []) := by
  refine ⟨rfl, C7_tracker_calls worldExempt rfl⟩

/-- Counterexample to claim C7 as stated: a compliant citizen reaches a
terminal outcome (Compliant) with ZERO completion-tracker calls — the
compliant branch of `kontroller_jobsoegning` performs no tracking and
`process_workqueue` adds none. -/
theorem C7_tracker_calls_counterexample :
    (process_workqueue_item worldCompliant).2 = .ok () ∧
    trackCount (process_workqueue_item worldCompliant).1 = 0 := by
  exact ⟨rfl, rfl⟩

theorem retryFrom_all_http {α} (attempts : Nat → Except MomErr α) :
    ∀ (r k : Nat),
      (∀ i, k ≤ i → i < k + r → ∃ e, attempts i = .error e ∧ isHttpError e = true) →
      retryFrom attempts k r = (attempts (k + r), k + r, waitsList k r)
  | 0, k, _ => by simp [retryFrom, waitsList]
  | r + 1, k, h => by
    obtain ⟨e, he, hhttp⟩ := h k (le_refl k) (by omega)
    have ih := retryFrom_all_http attempts r (k + 1)
      (fun i h1 h2 => h i (by omega) (by omega))
    simp only [retryFrom, he, hhttp, if_true]
    rw [ih]
    have hkr : k + 1 + r = k + (r + 1) := by omega
    rw [hkr]
    rfl

theorem retryFrom_stop {α} (attempts : Nat → Except MomErr α) :
    ∀ (j r k : Nat), j ≤ r →
      (∀ i, k ≤ i → i < k + j → ∃ e, attempts i = .error e ∧ isHttpError e = true) →
      ((∃ v, attempts (k + j) = .ok v) ∨
        (∃ e, attempts (k + j) = .error e ∧ isHttpError e = false)) →
      retryFrom attempts k r = (attempts (k + j), k + j, waitsList k j)
  | 0, r, k, _, _, hstop => by
    rcases r with _ | r'
    · simp [retryFrom, waitsList]
    · rcases hstop with ⟨v, hv⟩ | ⟨e, he, hhttp⟩
      · rw [Nat.add_zero] at hv
        simp [retryFrom, hv, waitsList]
      · rw [Nat.add_zero] at he
        simp [retryFrom, he, hhttp, waitsList]
  | j + 1, r, k, hjr, h, hstop => by
    rcases r with _ | r'
    · omega
    obtain ⟨e, he, hhttp⟩ := h k (le_refl k) (by omega)
    have hsh : k + 1 + j = k + (j + 1) := by omega
    have ih := retryFrom_stop attempts j r' (k + 1) (by omega)
      (fun i h1 h2 => h i (by omega) (by omega))
      (by rw [hsh]; exact hstop)
    simp only [retryFrom, he, hhttp, if_true]
    rw [ih, hsh]
    rfl

/-- Claim C8: the exemption-status fetch's retry policy, with the
tenacity decorator semantics modelled from the specification and the
decorator's configuration in the source (retry only on HTTPError, at
most 10 attempts, exponential waits of base 1 doubling capped at 10
units, reraise): the loop stops at the first non-HTTP outcome, returning
it unchanged with waits 1, 2, 4, ... before each retry; if all 10
attempts raise transient HTTP errors, the 10th outcome propagates
unchanged after 9 waits 1,2,4,8,10,10,10,10,10.  Every other external
call in the embedding consumes a single collaborator response with no
retry combinator. -/
theorem C8_retry_policy :
    (∀ (attempts : Nat → Except MomErr (Option PVStatus)) (k : Nat) (v : Option PVStatus),
      1 ≤ k → k ≤ 10 →
      (∀ i, 1 ≤ i → i < k → ∃ e, attempts i = .error e ∧ isHttpError e = true) →
      attempts k = .ok v →
      hent_personvisitationstatus_med_retry attempts = (.ok v, k, waitsList 1 (k - 1))) ∧
    (∀ (attempts : Nat → Except MomErr (Option PVStatus)) (k : Nat) (er : MomErr),
      1 ≤ k → k ≤ 10 →
      (∀ i, 1 ≤ i → i < k → ∃ e, attempts i = .error e ∧ isHttpError e = true) →
      attempts k = .error er → isHttpError er = false →
      hent_personvisitationstatus_med_retry attempts = (.error er, k, waitsList 1 (k - 1))) ∧
    (∀ attempts : Nat → Except MomErr (Option PVStatus),
      (∀ i, 1 ≤ i → i ≤ 10 → ∃ e, attempts i = .error e ∧ isHttpError e = true) →
      hent_personvisitationstatus_med_retry attempts = (attempts 10, 10, waitsList 1 9)) ∧
    waitsList 1 9 = [1, 2, 4, 8, 10, 10, 10, 10, 10] := by
  refine ⟨?_, ?_, ?_, by decide⟩
  · intro attempts k v h1 h10 hpre hk
    have hk1 : 1 + (k - 1) = k := by omega
    have h := retryFrom_stop attempts (k - 1) 9 1 (by omega)
      (fun i hi1 hi2 => hpre i hi1 (by omega))
      (Or.inl ⟨v, by rw [hk1]; exact hk⟩)
    rw [hk1] at h
    rw [hent_personvisitationstatus_med_retry, h, hk]
  · intro attempts k er h1 h10 hpre hk hhttp
    have hk1 : 1 + (k - 1) = k := by omega
    have h := retryFrom_stop attempts (k - 1) 9 1 (by omega)
      (fun i hi1 hi2 => hpre i hi1 (by omega))
      (Or.inr ⟨er, by rw [hk1]; exact hk, hhttp⟩)
    rw [hk1] at h
    rw [hent_personvisitationstatus_med_retry, h, hk]
  · intro attempts hall
    have h := retryFrom_all_http attempts 9 1
      (fun i hi1 hi2 => hall i hi1 (by omega))
    rw [hent_personvisitationstatus_med_retry, h]

/-- Witness for C8: three HTTP 504 failures then success on attempt 4 —
the decorated fetch returns the success, used 4 attempts and waited
1, 2 and 4 units. -/
theorem C8_retry_policy_witness :
    retryWitnessStream 4 = .ok (some ⟨some []⟩) ∧
    hent_personvisitationstatus_med_retry retryWitnessStream =
      (.ok (some ⟨some []⟩), 4, [1, 2, 4]) := by
  refine ⟨rfl, ?_⟩
  have h := C8_retry_policy.1 retryWitnessStream 4 (some ⟨some []⟩) (by norm_num)
    (by norm_num)
    (fun i h1 h2 => ⟨.httpError 504, by simp [retryWitnessStream, h2], rfl⟩) rfl
  rw [h]
  rfl
